import Mathlib

/-!
Verification development for the myco artificial-life simulator core:
the grid substrate (src/grid.rs), the organism virtual machine
(src/app/instruction.rs, src/app/organism/state.rs) and the population
manager (src/app/organism.rs), shallowly embedded in Lean.

Conventions of the embedding:
* machine bytes (`u8`) are `Nat` with wrapping arithmetic written as `% 256`;
* code that can panic in Rust (assertions, `unwrap`, out-of-bounds
  indexing) is embedded in the `Option` monad, `none` standing for a panic;
* the borrowed random source is an abstract stream of naturals together
  with a position; every draw advances the position by one and records the
  kind of draw in a log, so that theorems can speak about how much
  randomness a code path consumes;
* loops of the source whose termination is not structural are given an
  explicit fuel argument; exhausted fuel is also `none`.
-/

/-- Kinds of draws made from a random source: a full random byte
(`rng.gen()`), a Bernoulli fault/pierce check (`rng.gen_ratio`), or a
bounded index draw (`rng.gen_range`). -/
inductive RngEvent where
  | byteDraw
  | chanceCheck
  | rangeDraw
deriving DecidableEq, Repr

/-- Abstract random source: an infinite stream of naturals, a current
position into it, and a log of the draws made so far. -/
structure RngState where
  stream : Nat → Nat
  pos : Nat
  log : List RngEvent

/-- Draw one uniformly random byte (the source's `rng.gen()` at byte type). -/
def genByte (r : RngState) : Nat × RngState :=
  (r.stream r.pos % 256,
   { r with pos := r.pos + 1, log := r.log ++ [RngEvent.byteDraw] })

/-- Bernoulli draw with probability `num/den` (`rng.gen_ratio(num, den)`);
only ever called with `den \x3e 0` by the source. -/
def genChance (num den : Nat) (r : RngState) : Bool × RngState :=
  (decide (r.stream r.pos % den < num),
   { r with pos := r.pos + 1, log := r.log ++ [RngEvent.chanceCheck] })

/-- Uniform draw from `lo..hi` (`rng.gen_range(lo, hi)`); only ever called
with `lo < hi` by the source. -/
def genRange (lo hi : Nat) (r : RngState) : Nat × RngState :=
  (lo + r.stream r.pos % (hi - lo),
   { r with pos := r.pos + 1, log := r.log ++ [RngEvent.rangeDraw] })

/-- A grid position (src/grid.rs `Point`). -/
structure Point where
  x : Nat
  y : Nat
deriving DecidableEq, Repr

/-- Sort a pair of values (src/grid.rs `min_max`). -/
def min_max (a b : Nat) : Nat × Nat :=
  if a > b then (b, a) else (a, b)

/-- Minimum number of modular increments or decrements turning one number
into the other (src/grid.rs `dist_modular`). -/
def dist_modular (a b rem : Nat) : Nat :=
  let p := min_max a b
  min (p.2 - p.1) (p.1 + rem - p.2)

/-- Minimum number of modular decrements turning `a` into `b`
(src/grid.rs `sub_modular`). -/
def sub_modular (a b rem : Nat) : Nat :=
  if b > a then rem + a - b else a - b

/-- The four cardinal directions (src/grid.rs `Dir`). -/
inductive Dir where
  | L
  | R
  | U
  | D
deriving DecidableEq, Repr

/-- Reflect as in the character '#' (src/grid.rs `Dir::reverse`). -/
def Dir.reverse : Dir → Dir
  | .L => .R
  | .R => .L
  | .U => .D
  | .D => .U

/-- Reflect as in '|' (src/grid.rs `Dir::reflect_x`). -/
def Dir.reflect_x : Dir → Dir
  | .L => .R
  | .R => .L
  | d => d

/-- Reflect as in '-' (src/grid.rs `Dir::reflect_y`). -/
def Dir.reflect_y : Dir → Dir
  | .U => .D
  | .D => .U
  | d => d

/-- Reflect as in '/' (src/grid.rs `Dir::reflect_fwd`). -/
def Dir.reflect_fwd : Dir → Dir
  | .L => .D
  | .R => .U
  | .U => .R
  | .D => .L

/-- Reflect as in '\' (src/grid.rs `Dir::reflect_bwd`). -/
def Dir.reflect_bwd : Dir → Dir
  | .L => .U
  | .R => .D
  | .U => .L
  | .D => .R

/-- Move one step up, wrapping (src/grid.rs `Point::up`; the source asserts
`self.y < height`, so out-of-range input is a panic, i.e. `none`). -/
def Point.up (p : Point) (height : Nat) : Option Point :=
  if p.y < height then
    some { p with y := if p.y = 0 then height - 1 else p.y - 1 }
  else none

/-- Move `n` steps up, wrapping (src/grid.rs `Point::up_n`). -/
def Point.up_n (p : Point) (n height : Nat) : Option Point :=
  if p.y < height then
    let m := n % height
    some { p with y := if p.y < m then height + p.y - m else p.y - m }
  else none

/-- Move one step down, wrapping (src/grid.rs `Point::down`). -/
def Point.down (p : Point) (height : Nat) : Option Point :=
  if p.y < height then
    some { p with y := if p.y = height - 1 then 0 else p.y + 1 }
  else none

/-- Move one step left, wrapping (src/grid.rs `Point::left`). -/
def Point.left (p : Point) (width : Nat) : Option Point :=
  if p.x < width then
    some { p with x := if p.x = 0 then width - 1 else p.x - 1 }
  else none

/-- Move `n` steps left, wrapping (src/grid.rs `Point::left_n`). -/
def Point.left_n (p : Point) (n width : Nat) : Option Point :=
  if p.x < width then
    let m := n % width
    some { p with x := if p.x < m then width + p.x - m else p.x - m }
  else none

/-- Move one step right, wrapping (src/grid.rs `Point::right`). -/
def Point.right (p : Point) (width : Nat) : Option Point :=
  if p.x < width then
    some { p with x := if p.x = width - 1 then 0 else p.x + 1 }
  else none

/-- Move one step in a direction (src/grid.rs `Point::move_in`). -/
def Point.move_in (p : Point) (d : Dir) (width height : Nat) : Option Point :=
  match d with
  | .L => p.left width
  | .R => p.right width
  | .U => p.up height
  | .D => p.down height

/-- Modular taxicab (in fact Chebyshev) distance (src/grid.rs
`Point::dist_to`). -/
def Point.dist_to (p other : Point) (width height : Nat) : Nat :=
  max (dist_modular p.x other.x width) (dist_modular p.y other.y height)

/-- Modular componentwise subtraction (src/grid.rs `Point::sub`). -/
def Point.sub (p other : Point) (width height : Nat) : Point :=
  { x := sub_modular p.x other.x width, y := sub_modular p.y other.y height }

/-- Build a point from signed coordinates reduced modulo the grid
dimensions (src/grid.rs `Point::from_modular`; `rem_euclid` by zero is a
panic). -/
def Point.from_modular (x y : Int) (width height : Nat) : Option Point :=
  if width = 0 ∨ height = 0 then none
  else some { x := (x % (width : Int)).toNat, y := (y % (height : Int)).toNat }

/-- Opcode categories (src/app/instruction.rs `Category`). -/
inductive Category where
  | Special
  | Wall
  | Calculation
  | Control
  | Cursor
  | Selection
  | Memory
deriving DecidableEq, Repr

/-- The instruction set (src/app/instruction.rs, the `gen_variant!`
invocation). The variants are listed in declaration order; the table ends
with `Paste` — the source defines no variant of the Memory category. -/
inductive Instruction where
  | Halt
  | Nop
  | FlagFork
  | CursorFork
  | Wall
  | ZeroA
  | ZeroB
  | CopyA
  | CopyB
  | SwapAB
  | SumA
  | SumB
  | NegateA
  | NegateB
  | IncA
  | IncB
  | DecA
  | DecB
  | MulA
  | MulB
  | DoubleA
  | DoubleB
  | HalveA
  | HalveB
  | Mod2A
  | Mod2B
  | BitAndA
  | BitAndB
  | BitOrA
  | BitOrB
  | BitXorA
  | BitXorB
  | EqA
  | EqB
  | NeqA
  | NeqB
  | NonzeroA
  | NonzeroB
  | IsZeroA
  | IsZeroB
  | WaitA
  | WaitB
  | MoveL
  | MoveR
  | MoveU
  | MoveD
  | CondMoveL
  | CondMoveR
  | CondMoveU
  | CondMoveD
  | CondHalt
  | ReflectAll
  | ReflectX
  | ReflectY
  | ReflectFwd
  | ReflectBwd
  | SetFlag
  | ClearFlag
  | FlagZeroA
  | FlagNonzeroA
  | FlagZeroB
  | FlagNonzeroB
  | FlagEq
  | FlagNeq
  | FlagNot
  | FlagToA
  | FlagToB
  | CursorL
  | CursorR
  | CursorU
  | CursorD
  | CursorLTimesA
  | CursorRTimesA
  | CursorUTimesA
  | CursorDTimesA
  | CursorLTimesB
  | CursorRTimesB
  | CursorUTimesB
  | CursorDTimesB
  | CursorHome
  | RadiusA
  | RadiusB
  | RadiusReset
  | RadiusToA
  | RadiusToB
  | IncRadius
  | DecRadius
  | CursorA
  | CursorB
  | CursorToA
  | CursorToB
  | Copy
  | Paste
deriving DecidableEq, BEq, Repr

/-- Category of each instruction, per the table in src/app/instruction.rs. -/
def Instruction.category : Instruction → Category
  | .Halt | .Nop | .FlagFork | .CursorFork => .Special
  | .Wall => .Wall
  | .ZeroA | .ZeroB | .CopyA | .CopyB | .SwapAB | .SumA | .SumB
  | .NegateA | .NegateB | .IncA | .IncB | .DecA | .DecB | .MulA | .MulB
  | .DoubleA | .DoubleB | .HalveA | .HalveB | .Mod2A | .Mod2B
  | .BitAndA | .BitAndB | .BitOrA | .BitOrB | .BitXorA | .BitXorB
  | .EqA | .EqB | .NeqA | .NeqB | .NonzeroA | .NonzeroB
  | .IsZeroA | .IsZeroB => .Calculation
  | .WaitA | .WaitB | .MoveL | .MoveR | .MoveU | .MoveD
  | .CondMoveL | .CondMoveR | .CondMoveU | .CondMoveD | .CondHalt
  | .ReflectAll | .ReflectX | .ReflectY | .ReflectFwd | .ReflectBwd
  | .SetFlag | .ClearFlag | .FlagZeroA | .FlagNonzeroA
  | .FlagZeroB | .FlagNonzeroB | .FlagEq | .FlagNeq | .FlagNot
  | .FlagToA | .FlagToB => .Control
  | .CursorL | .CursorR | .CursorU | .CursorD
  | .CursorLTimesA | .CursorRTimesA | .CursorUTimesA | .CursorDTimesA
  | .CursorLTimesB | .CursorRTimesB | .CursorUTimesB | .CursorDTimesB
  | .CursorHome => .Cursor
  | .RadiusA | .RadiusB | .RadiusReset | .RadiusToA | .RadiusToB
  | .IncRadius | .DecRadius | .CursorA | .CursorB
  | .CursorToA | .CursorToB | .Copy | .Paste => .Selection

set_option maxHeartbeats 1600000 in
/-- The dense opcode table, in declaration order (src/app/instruction.rs,
`INSTRUCTIONS`). Its order is the byte encoding. -/
def INSTRUCTIONS : List Instruction :=
  [.Halt, .Nop, .FlagFork, .CursorFork,
   .Wall,
   .ZeroA, .ZeroB, .CopyA, .CopyB, .SwapAB, .SumA, .SumB,
   .NegateA, .NegateB, .IncA, .IncB, .DecA, .DecB, .MulA, .MulB,
   .DoubleA, .DoubleB, .HalveA, .HalveB, .Mod2A, .Mod2B,
   .BitAndA, .BitAndB, .BitOrA, .BitOrB, .BitXorA, .BitXorB,
   .EqA, .EqB, .NeqA, .NeqB, .NonzeroA, .NonzeroB, .IsZeroA, .IsZeroB,
   .WaitA, .WaitB, .MoveL, .MoveR, .MoveU, .MoveD,
   .CondMoveL, .CondMoveR, .CondMoveU, .CondMoveD, .CondHalt,
   .ReflectAll, .ReflectX, .ReflectY, .ReflectFwd, .ReflectBwd,
   .SetFlag, .ClearFlag, .FlagZeroA, .FlagNonzeroA, .FlagZeroB,
   .FlagNonzeroB, .FlagEq, .FlagNeq, .FlagNot, .FlagToA, .FlagToB,
   .CursorL, .CursorR, .CursorU, .CursorD,
   .CursorLTimesA, .CursorRTimesA, .CursorUTimesA, .CursorDTimesA,
   .CursorLTimesB, .CursorRTimesB, .CursorUTimesB, .CursorDTimesB,
   .CursorHome,
   .RadiusA, .RadiusB, .RadiusReset, .RadiusToA, .RadiusToB,
   .IncRadius, .DecRadius, .CursorA, .CursorB, .CursorToA, .CursorToB,
   .Copy, .Paste]

/-- Decode a byte: table lookup, `Nop` for bytes past the end
(src/app/instruction.rs `Instruction::from_byte`). -/
def Instruction.from_byte (b : Nat) : Instruction :=
  (INSTRUCTIONS.get? b).getD .Nop

/-- The numeric value of an opcode (`Instruction::Wall as u8` in the
source): its discriminant, i.e. its index in declaration order. -/
def Instruction.asByte (i : Instruction) : Nat :=
  INSTRUCTIONS.indexOf i

/-- The grid substrate (src/grid.rs `Grid`). The invariant maintained by
construction is `data.length = width * height`. -/
structure GridState where
  width : Nat
  height : Nat
  data : List Nat
  rng : RngState
  write_error_chance : Nat
  wall_pierce_chance : Nat

/-- Read the byte at `p` (src/grid.rs `Grid::get` via `get_ref`): `none`
when the point is out of range — the accessor itself performs no modular
reduction. -/
def GridState.get (g : GridState) (p : Point) : Option Nat :=
  if p.x < g.width ∧ p.y < g.height then g.data.get? (p.y * g.width + p.x)
  else none

/-- Write at `p` (src/grid.rs `Grid::set`): out of range is a panic. A
random byte `wrong` is always drawn first; when `write_error_chance > 0` a
fault check follows and, if it fires, `wrong` is stored instead of `new`. -/
def GridState.set (g : GridState) (p : Point) (new : Nat) : Option GridState :=
  if p.x < g.width ∧ p.y < g.height then
    let wb := genByte g.rng
    if g.write_error_chance > 0 then
      let fc := genChance 1 g.write_error_chance wb.2
      some { g with
        data := g.data.set (p.y * g.width + p.x) (if fc.1 then wb.1 else new),
        rng := fc.2 }
    else
      some { g with data := g.data.set (p.y * g.width + p.x) new, rng := wb.2 }
  else none

/-- Wall pierce check (src/grid.rs `Grid::pierce_wall`): false without
consuming randomness when the rate is zero. -/
def GridState.pierce_wall (g : GridState) : Bool × GridState :=
  if g.wall_pierce_chance ≠ 0 then
    let bc := genChance 1 g.wall_pierce_chance g.rng
    (bc.1, { g with rng := bc.2 })
  else (false, g)

/-- Failure modes of grid construction. The source's `Grid::init` fails
only by `assert_ne!(width * height, 0)`, i.e. a panic (`assertFailed`).
`badWidth`/`badHeight` are modelled from the spec: the spec describes
construction errors `BadWidth`/`BadHeight` surfaced as returned errors,
which have no counterpart in the source. -/
inductive GridFailure where
  | assertFailed
  | badWidth
  | badHeight
deriving DecidableEq, Repr

/-- Build the initial cell data (the loop of src/grid.rs `Grid::init`):
each cell is the fill byte except, when `write_error_chance` is nonzero,
with probability `1/write_error_chance` a random byte. -/
def gridInitData (fill wec : Nat) : Nat → RngState → List Nat × RngState
  | 0, r => ([], r)
  | n + 1, r =>
    if wec ≠ 0 then
      let bc := genChance 1 wec r
      if bc.1 then
        let vb := genByte bc.2
        let rest := gridInitData fill wec n vb.2
        (vb.1 :: rest.1, rest.2)
      else
        let rest := gridInitData fill wec n bc.2
        (fill :: rest.1, rest.2)
    else
      let rest := gridInitData fill wec n r
      (fill :: rest.1, rest.2)

/-- Grid construction (src/grid.rs `Grid::init`). The source asserts
`width * height ≠ 0` — a panic, not a returned error value. -/
def GridState.init (width height : Nat) (rng : RngState) (fill wec : Nat) :
    Except GridFailure GridState :=
  if width * height = 0 then Except.error GridFailure.assertFailed
  else
    let dr := gridInitData fill wec (width * height) rng
    Except.ok { width := width, height := height, data := dr.1, rng := dr.2,
                write_error_chance := wec, wall_pierce_chance := 0 }

/-- Square root of an odd square between 1 and 441
(src/app/organism/state.rs `isqrt`); any other input is a panic. -/
def isqrt (n : Nat) : Option Nat :=
  if n = 1 then some 1
  else if n = 9 then some 3
  else if n = 25 then some 5
  else if n = 49 then some 7
  else if n = 81 then some 9
  else if n = 121 then some 11
  else if n = 169 then some 13
  else if n = 225 then some 15
  else if n = 289 then some 17
  else if n = 361 then some 19
  else if n = 441 then some 21
  else none

/-- Radius of a square selection (src/app/organism/state.rs
`selection_radius`). -/
def selection_radius (sel : List Nat) : Option Nat :=
  (isqrt sel.length).map (fun m => (m - 1) / 2)

/-- Per-organism execution state (src/app/organism/state.rs
`OrganismState`). -/
structure OrganismState where
  ip : Point
  dir : Dir
  cursor : Point
  clipboard : List Nat
  r : Nat
  flag : Bool
  ax : Nat
  bx : Nat
  storage : List Nat
  mp : Nat
deriving DecidableEq, Repr

/-- Result of executing one instruction (src/app/organism/state.rs
`Response`). -/
inductive Response where
  | delay (n : Nat)
  | fork (child : OrganismState)
  | die
deriving DecidableEq, Repr

/-- Fresh organism state at a position (src/app/organism/state.rs
`OrganismState::init`). -/
def OrganismState.init (pos : Point) : OrganismState :=
  { ip := pos, dir := .R, cursor := pos, clipboard := [0], r := 0,
    flag := false, ax := 0, bx := 0, storage := [], mp := 0 }

/-- Advance the instruction pointer one step in the current direction
(src/app/organism/state.rs `OrganismState::advance`). -/
def OrganismState.advance (s : OrganismState) (g : GridState) :
    Option OrganismState :=
  (s.ip.move_in s.dir g.width g.height).map (fun p => { s with ip := p })

/-- Attempt to set the selection radius; out-of-bounds proposals are
ignored (src/app/organism/state.rs `OrganismState::set_r`). -/
def OrganismState.set_r (s : OrganismState) (new : Nat) : OrganismState :=
  if new ≤ 10 then { s with r := new } else s

/-- Attempt to move the cursor; refused when the destination byte is the
Wall opcode (src/app/organism/state.rs `OrganismState::try_set_cursor`).
Returns the updated state and whether the move happened. -/
def OrganismState.try_set_cursor (s : OrganismState) (new_pos : Point)
    (g : GridState) : Option (OrganismState × Bool) := do
  let b ← g.get new_pos
  if b = Instruction.Wall.asByte then some (s, false)
  else some ({ s with cursor := new_pos }, true)

/-- The loop of the `return_repeat_move!` macro
(src/app/organism/state.rs): attempt up to `n` more steps, counting every
attempt (`i` is incremented before the attempt; a failed attempt breaks
the loop but is still counted). -/
def repeatMoveGo (d : Dir) (g : GridState) :
    Nat → Nat → OrganismState → Option (OrganismState × Nat)
  | 0, i, s => some (s, i)
  | n + 1, i, s => do
    let np ← s.cursor.move_in d g.width g.height
    let tc ← s.try_set_cursor np g
    if tc.2 then repeatMoveGo d g n (i + 1) tc.1
    else some (tc.1, i + 1)

/-- The enumeration of the selection square around the cursor
(src/app/organism/state.rs `get_points_for_selection`): offsets `-r..=r`,
x-outer then y-inner, each reduced with `from_modular`. -/
def get_points_for_selection (cursor : Point) (r : Nat) (width height : Nat) :
    Option (List Point) :=
  let offs := (List.range (2 * r + 1)).map (fun i => (i : Int) - (r : Int))
  (offs.mapM (fun dx => offs.mapM (fun dy =>
    Point.from_modular ((cursor.x : Int) + dx) ((cursor.y : Int) + dy)
      width height))).map List.flatten

/-- One pass of the paste flood fill (the `while let Some(p) = frontier.pop()`
loop of src/app/organism/state.rs `OrganismState::paste`), with explicit
fuel. The source's `frontier` is a Vec used as a stack (pop from the end),
modelled here with the list head as the stack top, so the four neighbor
pushes appear in reverse order; `modified` is only ever queried for
membership. -/
def pasteLoop (cursor low : Point) (r width : Nat) (clip : List Nat) :
    Nat → GridState → List Point → List Point →
    Option (GridState × List Point)
  | 0, _, _, _ => none
  | _ + 1, g, [], modified => some (g, modified)
  | fuel + 1, g, p :: rest, modified =>
    if p ∈ modified then pasteLoop cursor low r width clip fuel g rest modified
    else if r < p.dist_to cursor g.width g.height then
      pasteLoop cursor low r width clip fuel g rest modified
    else
      let modified' := modified ++ [p]
      match g.get p with
      | none => none
      | some byte =>
        if byte = Instruction.Wall.asByte then
          let pc := g.pierce_wall
          if pc.1 then
            let rel := p.sub low pc.2.width pc.2.height
            match clip.get? (rel.x * width + rel.y) with
            | none => none
            | some v =>
              match pc.2.set p v with
              | none => none
              | some g2 =>
                match p.up g2.height, p.down g2.height,
                      p.left g2.width, p.right g2.width with
                | some pu, some pd, some pl, some pr =>
                  pasteLoop cursor low r width clip fuel g2
                    (pr :: pl :: pd :: pu :: rest) modified'
                | _, _, _, _ => none
          else pasteLoop cursor low r width clip fuel pc.2 rest modified'
        else
          let rel := p.sub low g.width g.height
          match clip.get? (rel.x * width + rel.y) with
          | none => none
          | some v =>
            match g.set p v with
            | none => none
            | some g2 =>
              match p.up g2.height, p.down g2.height,
                    p.left g2.width, p.right g2.width with
              | some pu, some pd, some pl, some pr =>
                pasteLoop cursor low r width clip fuel g2
                  (pr :: pl :: pd :: pu :: rest) modified'
              | _, _, _, _ => none

/-- Paste the clipboard onto the grid by flood fill
(src/app/organism/state.rs `OrganismState::paste`); returns the written
square's side length. The fuel `4 * width * height + 2` is sufficient for
the loop to run to completion (proved below for the well-formed cases the
source can reach). -/
def OrganismState.paste (s : OrganismState) (g : GridState) :
    Option (Nat × GridState) := do
  let r ← selection_radius s.clipboard
  let width := r * 2 + 1
  let c1 ← s.cursor.left_n r g.width
  let low ← c1.up_n r g.height
  let res ← pasteLoop s.cursor low r width s.clipboard
    (4 * g.width * g.height + 2) g [s.cursor] []
  some (width, res.1)

/-- Execute one instruction (src/app/organism/state.rs
`OrganismState::run`). Note on fidelity: the source's `match` also
contains arms named `Pointer0` through `DecPointeeB`, but no such variants
exist in the `Instruction` enum (the opcode table ends at `Paste`), so in
Rust those arms are irrefutable identifier patterns that are unreachable —
every variant is already matched by the arms above them. They therefore do
not appear in the embedding. -/
def OrganismState.run (s : OrganismState) (g : GridState)
    (ins : Instruction) : Option (OrganismState × GridState × Response) :=
  match ins with
  | .Halt => some (s, g, .die)
  | .Wall => some (s, g, .die)
  | .Nop => some (s, g, .delay 0)
  | .FlagFork => some ({ s with flag := false }, g, .fork { s with flag := true })
  | .CursorFork => some (s, g, .fork { s with ip := s.cursor })
  | .ZeroA => some ({ s with ax := 0 }, g, .delay 0)
  | .ZeroB => some ({ s with bx := 0 }, g, .delay 0)
  | .CopyA => some ({ s with bx := s.ax }, g, .delay 0)
  | .CopyB => some ({ s with ax := s.bx }, g, .delay 0)
  | .SwapAB => some ({ s with ax := s.bx, bx := s.ax }, g, .delay 0)
  | .SumA => some ({ s with ax := (s.ax + s.bx) % 256 }, g, .delay 0)
  | .SumB => some ({ s with bx := (s.ax + s.bx) % 256 }, g, .delay 0)
  | .NegateA => some ({ s with ax := (256 - s.ax % 256) % 256 }, g, .delay 0)
  | .NegateB => some ({ s with bx := (256 - s.bx % 256) % 256 }, g, .delay 0)
  | .IncA => some ({ s with ax := (s.ax + 1) % 256 }, g, .delay 0)
  | .IncB => some ({ s with bx := (s.bx + 1) % 256 }, g, .delay 0)
  | .DecA => some ({ s with ax := (s.ax + 255) % 256 }, g, .delay 0)
  | .DecB => some ({ s with bx := (s.bx + 255) % 256 }, g, .delay 0)
  | .MulA => some ({ s with ax := (s.ax * s.bx) % 256 }, g, .delay 0)
  | .MulB => some ({ s with bx := (s.ax * s.bx) % 256 }, g, .delay 0)
  | .DoubleA => some ({ s with ax := (s.ax * 2) % 256 }, g, .delay 0)
  | .DoubleB => some ({ s with bx := (s.bx * 2) % 256 }, g, .delay 0)
  | .HalveA => some ({ s with ax := s.ax / 2 }, g, .delay 0)
  | .HalveB => some ({ s with bx := s.bx / 2 }, g, .delay 0)
  | .Mod2A => some ({ s with ax := s.ax % 2 }, g, .delay 0)
  | .Mod2B => some ({ s with bx := s.bx % 2 }, g, .delay 0)
  | .BitAndA => some ({ s with ax := Nat.land s.ax s.bx }, g, .delay 0)
  | .BitAndB => some ({ s with bx := Nat.land s.bx s.ax }, g, .delay 0)
  | .BitOrA => some ({ s with ax := Nat.lor s.ax s.bx }, g, .delay 0)
  | .BitOrB => some ({ s with bx := Nat.lor s.bx s.ax }, g, .delay 0)
  | .BitXorA => some ({ s with ax := Nat.xor s.ax s.bx }, g, .delay 0)
  | .BitXorB => some ({ s with bx := Nat.xor s.bx s.ax }, g, .delay 0)
  | .EqA => some ({ s with ax := if s.ax = s.bx then 1 else 0 }, g, .delay 0)
  | .EqB => some ({ s with bx := if s.ax = s.bx then 1 else 0 }, g, .delay 0)
  | .NeqA => some ({ s with ax := if s.ax ≠ s.bx then 1 else 0 }, g, .delay 0)
  | .NeqB => some ({ s with bx := if s.ax ≠ s.bx then 1 else 0 }, g, .delay 0)
  | .NonzeroA => some ({ s with ax := if s.ax ≠ 0 then 1 else 0 }, g, .delay 0)
  | .NonzeroB => some ({ s with bx := if s.bx ≠ 0 then 1 else 0 }, g, .delay 0)
  | .IsZeroA => some ({ s with ax := if s.ax = 0 then 1 else 0 }, g, .delay 0)
  | .IsZeroB => some ({ s with bx := if s.bx = 0 then 1 else 0 }, g, .delay 0)
  | .WaitA => some (s, g, .delay s.ax)
  | .WaitB => some (s, g, .delay s.bx)
  | .MoveL => some ({ s with dir := .L }, g, .delay 0)
  | .MoveR => some ({ s with dir := .R }, g, .delay 0)
  | .MoveU => some ({ s with dir := .U }, g, .delay 0)
  | .MoveD => some ({ s with dir := .D }, g, .delay 0)
  | .CondMoveL => some (if s.flag then { s with dir := .L } else s, g, .delay 0)
  | .CondMoveR => some (if s.flag then { s with dir := .R } else s, g, .delay 0)
  | .CondMoveU => some (if s.flag then { s with dir := .U } else s, g, .delay 0)
  | .CondMoveD => some (if s.flag then { s with dir := .D } else s, g, .delay 0)
  | .CondHalt => if s.flag then some (s, g, .die) else some (s, g, .delay 0)
  | .ReflectAll => some ({ s with dir := s.dir.reverse }, g, .delay 0)
  | .ReflectX => some ({ s with dir := s.dir.reflect_x }, g, .delay 0)
  | .ReflectY => some ({ s with dir := s.dir.reflect_y }, g, .delay 0)
  | .ReflectFwd => some ({ s with dir := s.dir.reflect_fwd }, g, .delay 0)
  | .ReflectBwd => some ({ s with dir := s.dir.reflect_bwd }, g, .delay 0)
  | .SetFlag => some ({ s with flag := true }, g, .delay 0)
  | .ClearFlag => some ({ s with flag := false }, g, .delay 0)
  | .FlagZeroA => some ({ s with flag := s.ax = 0 }, g, .delay 0)
  | .FlagNonzeroA => some ({ s with flag := s.ax ≠ 0 }, g, .delay 0)
  | .FlagZeroB => some ({ s with flag := s.bx = 0 }, g, .delay 0)
  | .FlagNonzeroB => some ({ s with flag := s.bx ≠ 0 }, g, .delay 0)
  | .FlagEq => some ({ s with flag := s.ax = s.bx }, g, .delay 0)
  | .FlagNeq => some ({ s with flag := s.ax ≠ s.bx }, g, .delay 0)
  | .FlagNot => some ({ s with flag := !s.flag }, g, .delay 0)
  | .FlagToA => some ({ s with ax := if s.flag then 1 else 0 }, g, .delay 0)
  | .FlagToB => some ({ s with bx := if s.flag then 1 else 0 }, g, .delay 0)
  | .CursorL => do
    let np ← s.cursor.left g.width
    let tc ← s.try_set_cursor np g
    some (tc.1, g, .delay 0)
  | .CursorR => do
    let np ← s.cursor.right g.width
    let tc ← s.try_set_cursor np g
    some (tc.1, g, .delay 0)
  | .CursorU => do
    let np ← s.cursor.up g.height
    let tc ← s.try_set_cursor np g
    some (tc.1, g, .delay 0)
  | .CursorD => do
    let np ← s.cursor.down g.height
    let tc ← s.try_set_cursor np g
    some (tc.1, g, .delay 0)
  | .CursorLTimesA => do
    let mv ← repeatMoveGo .L g s.ax 0 s
    some (mv.1, g, .delay mv.2)
  | .CursorRTimesA => do
    let mv ← repeatMoveGo .R g s.ax 0 s
    some (mv.1, g, .delay mv.2)
  | .CursorUTimesA => do
    let mv ← repeatMoveGo .U g s.ax 0 s
    some (mv.1, g, .delay mv.2)
  | .CursorDTimesA => do
    let mv ← repeatMoveGo .D g s.ax 0 s
    some (mv.1, g, .delay mv.2)
  | .CursorLTimesB => do
    let mv ← repeatMoveGo .L g s.bx 0 s
    some (mv.1, g, .delay mv.2)
  | .CursorRTimesB => do
    let mv ← repeatMoveGo .R g s.bx 0 s
    some (mv.1, g, .delay mv.2)
  | .CursorUTimesB => do
    let mv ← repeatMoveGo .U g s.bx 0 s
    some (mv.1, g, .delay mv.2)
  | .CursorDTimesB => do
    let mv ← repeatMoveGo .D g s.bx 0 s
    some (mv.1, g, .delay mv.2)
  | .CursorHome => do
    let tc ← s.try_set_cursor s.ip g
    some (tc.1, g, .delay 0)
  | .RadiusA => some (s.set_r s.ax, g, .delay 0)
  | .RadiusB => some (s.set_r s.bx, g, .delay 0)
  | .RadiusReset => some ({ s with r := 0 }, g, .delay 0)
  | .RadiusToA => some ({ s with ax := s.r }, g, .delay 0)
  | .RadiusToB => some ({ s with bx := s.r }, g, .delay 0)
  | .IncRadius => some (s.set_r ((s.r + 1) % 256), g, .delay 0)
  | .DecRadius => some (s.set_r (s.r - 1), g, .delay 0)
  | .CursorA => do
    let g' ← g.set s.cursor s.ax
    some (s, g', .delay 0)
  | .CursorB => do
    let g' ← g.set s.cursor s.bx
    some (s, g', .delay 0)
  | .CursorToA => do
    let b ← g.get s.cursor
    some ({ s with ax := b }, g, .delay 0)
  | .CursorToB => do
    let b ← g.get s.cursor
    some ({ s with bx := b }, g, .delay 0)
  | .Copy => do
    let pts ← get_points_for_selection s.cursor s.r g.width g.height
    let bytes ← pts.mapM (fun p => g.get p)
    some ({ s with clipboard := bytes }, g, .delay 0)
  | .Paste => do
    let pr ← s.paste g
    some (s, pr.2, .delay pr.1)

/-- A unique organism identifier (src/app/organism.rs `OrganismId`). -/
abbrev OrganismId := Nat

/-- A scheduling wrapper around one organism state
(src/app/organism.rs `OrganismContext`). -/
structure OrganismContext where
  id : OrganismId
  child_potential : Option Nat
  life_potential : Option Nat
  delay_cycles : Nat
  organism : OrganismState
deriving DecidableEq, Repr

/-- Decrement an optional counter (src/app/organism.rs `dec_option`):
returns the updated counter and `true` when the action it guards is
permitted (absent counter means unlimited). -/
def dec_option : Option Nat → Option Nat × Bool
  | none => (none, true)
  | some t => if 0 < t then (some (t - 1), true) else (some t, false)

/-- The population container (src/app/organism.rs `OrganismCollection`):
a slot vector with `none` flagging a dead slot, plus an id-to-index map
(modelled as an association list) and the cull RNG. -/
structure OrganismCollection where
  next_id : OrganismId
  max_children : Option Nat
  lifetime : Option Nat
  organisms : List (Option OrganismContext)
  id_map : List (OrganismId × Nat)
  kill_rng : RngState

/-- Fresh empty collection (src/app/organism.rs `OrganismCollection::new`):
defaults are `max_children = 4`, `lifetime = 100`. -/
def OrganismCollection.new (kill_rng : RngState) : OrganismCollection :=
  { next_id := 0, max_children := some 4, lifetime := some 100,
    organisms := [], id_map := [], kill_rng := kill_rng }

/-- Population count (src/app/organism.rs `OrganismCollection::len`):
the number of entries of the id map. -/
def OrganismCollection.len (c : OrganismCollection) : Nat :=
  c.id_map.length

/-- Whether an id is alive (src/app/organism.rs
`OrganismCollection::alive`). -/
def OrganismCollection.alive (c : OrganismCollection) (id : OrganismId) : Bool :=
  (c.id_map.lookup id).isSome

/-- Look up a context by id (src/app/organism.rs
`OrganismCollection::get`). -/
def OrganismCollection.get (c : OrganismCollection) (id : OrganismId) :
    Option OrganismContext := do
  let idx ← c.id_map.lookup id
  (c.organisms.get? idx).bind (fun slot => slot)

/-- Insert a state as a new organism (src/app/organism.rs
`OrganismCollection::insert` with `create_context`): assign a fresh id,
fill the first dead slot or append, and record the index in the id map. -/
def OrganismCollection.insert (c : OrganismCollection) (state : OrganismState) :
    OrganismCollection :=
  let ctx : OrganismContext :=
    { id := c.next_id, child_potential := c.max_children,
      life_potential := c.lifetime, delay_cycles := 0, organism := state }
  match c.organisms.findIdx? (fun slot => slot.isNone) with
  | some idx =>
    { c with next_id := c.next_id + 1,
             organisms := c.organisms.set idx (some ctx),
             id_map := c.id_map ++ [(ctx.id, idx)] }
  | none =>
    { c with next_id := c.next_id + 1,
             organisms := c.organisms ++ [some ctx],
             id_map := c.id_map ++ [(ctx.id, c.organisms.length)] }

/-- Rust `Vec::swap_remove`: replace the element at `i` with the last and
shrink by one. -/
def swapRemove {α : Type} (l : List α) (i : Nat) : List α :=
  match l.getLast? with
  | none => []
  | some last => (l.set i last).dropLast

/-- Point the id map entry of `id` at a new index; the source reaches this
through `get_mut(..).unwrap()`, so a missing entry is a panic. -/
def idMapUpdate (m : List (OrganismId × Nat)) (id : OrganismId) (idx : Nat) :
    Option (List (OrganismId × Nat)) :=
  if (m.lookup id).isSome then
    some (m.map (fun kv => if kv.1 = id then (id, idx) else kv))
  else none

/-- Remove an organism by id (src/app/organism.rs
`OrganismCollection::remove`): unknown ids are a panic (`unwrap`); the
slot vector shrinks by `swap_remove` and the moved slot's id is re-indexed. -/
def OrganismCollection.remove (c : OrganismCollection) (id : OrganismId) :
    Option OrganismCollection := do
  let idx ← c.id_map.lookup id
  if idx < c.organisms.length then
    let _ ← c.organisms.get? idx >>= fun slot => slot
    let organisms' := swapRemove c.organisms idx
    let m := c.id_map.filter (fun kv => kv.1 ≠ id)
    match organisms'.get? idx with
    | some (some replaced) => do
      let m' ← idMapUpdate m replaced.id idx
      some { c with organisms := organisms', id_map := m' }
    | _ => some { c with organisms := organisms', id_map := m }
  else none

/-- The retry loop of `kill_random` (src/app/organism.rs): draw a random
slot index until a live slot is hit. The source loops without bound; fuel
exhaustion is modelled as `none` like a panic, and is unreachable while
the collection invariants hold. -/
def killRandomGo : Nat → OrganismCollection → Option OrganismCollection
  | 0, _ => none
  | fuel + 1, c =>
    let ir := genRange 0 c.organisms.length c.kill_rng
    let c' := { c with kill_rng := ir.2 }
    match c.organisms.get? ir.1 with
    | some (some ctx) => c'.remove ctx.id
    | some none => killRandomGo fuel c'
    | none => none

/-- Remove one uniformly random live organism (src/app/organism.rs
`OrganismCollection::kill_random`); an empty population is a panic. -/
def OrganismCollection.kill_random (c : OrganismCollection) :
    Option OrganismCollection :=
  if c.len = 0 then none
  else killRandomGo (c.organisms.length + 1) c

/-- Run one slot of the cycle (the body of the `for context in &mut
self.organisms` loop of src/app/organism.rs `run_cycle`). Returns the
updated slot, the grid after this organism ran, any child buffered for
insertion and any suicide recorded. -/
def runCycleSlot (g : GridState) (slot : Option OrganismContext) :
    Option (Option OrganismContext × GridState × List OrganismState ×
            List OrganismId) :=
  match slot with
  | none => some (none, g, [], [])
  | some ctx =>
    if ctx.delay_cycles ≠ 0 then
      some (some { ctx with delay_cycles := ctx.delay_cycles - 1 }, g, [], [])
    else
      let lp := dec_option ctx.life_potential
      if !lp.2 then
        some (some { ctx with life_potential := lp.1 }, g, [], [ctx.id])
      else
        let ctx := { ctx with life_potential := lp.1 }
        match g.get ctx.organism.ip with
        | none => none
        | some byte =>
          match ctx.organism.run g (Instruction.from_byte byte) with
          | none => none
          | some (s', g', resp) =>
            match resp with
            | .delay n =>
              match s'.advance g' with
              | none => none
              | some s'' =>
                some (some { ctx with delay_cycles := n, organism := s'' },
                      g', [], [])
            | .fork child =>
              match s'.advance g' with
              | none => none
              | some s'' =>
                let cp := dec_option ctx.child_potential
                if cp.2 then
                  match child.advance g' with
                  | none => none
                  | some child' =>
                    some (some { ctx with organism := s'',
                                          child_potential := cp.1 },
                          g', [child'], [])
                else
                  some (some { ctx with organism := s'',
                                        child_potential := cp.1 }, g', [], [])
            | .die =>
              some (some { ctx with organism := s' }, g', [], [ctx.id])

/-- Run every slot in order, threading the grid (the iteration of
src/app/organism.rs `run_cycle`). -/
def runCycleSlots (g : GridState) : List (Option OrganismContext) →
    Option (List (Option OrganismContext) × GridState × List OrganismState ×
            List OrganismId)
  | [] => some ([], g, [], [])
  | slot :: rest => do
    let (slot', g1, new1, dead1) ← runCycleSlot g slot
    let (rest', g2, new2, dead2) ← runCycleSlots g1 rest
    some (slot' :: rest', g2, new1 ++ new2, dead1 ++ dead2)

/-- Remove each listed id in order (the suicide pass of `run_cycle`). -/
def removeAll (c : OrganismCollection) : List OrganismId →
    Option OrganismCollection
  | [] => some c
  | id :: rest => do
    let c' ← c.remove id
    removeAll c' rest

/-- Perform `n` random culls (the `for _ in 0..deaths_required` loop of
`run_cycle`). -/
def killMany (c : OrganismCollection) : Nat → Option OrganismCollection
  | 0 => some c
  | n + 1 => do
    let c' ← c.kill_random
    killMany c' n

/-- Insert every buffered child (the final loop of `run_cycle`). -/
def insertAll (c : OrganismCollection) : List OrganismState →
    OrganismCollection
  | [] => c
  | st :: rest => insertAll (c.insert st) rest

/-- Run one cycle over all organisms (src/app/organism.rs
`OrganismCollection::run_cycle`): execute each live slot, remove suicides,
enforce the population cap by random culls, then insert the children. -/
def OrganismCollection.run_cycle (c : OrganismCollection) (g : GridState)
    (max_organisms : Option Nat) : Option (OrganismCollection × GridState) := do
  let (orgs', g', new, suicides) ← runCycleSlots g c.organisms
  let c1 := { c with organisms := orgs' }
  let c2 ← removeAll c1 suicides
  let c3 ← match max_organisms with
    | none => some c2
    | some max => killMany c2 ((c2.len + new.length) - max)
  some (insertAll c3 new, g')

/-- The traversal of src/app/organism.rs `OrganismCollection::dedup`:
blank out every live slot whose `(delay_cycles, organism)` pair is already
in the seen set, collecting the removed ids. -/
def dedupGo (seen : List (Nat × OrganismState)) :
    List (Option OrganismContext) →
    List (Option OrganismContext) × List OrganismId
  | [] => ([], [])
  | none :: rest =>
    let r := dedupGo seen rest
    (none :: r.1, r.2)
  | some ctx :: rest =>
    if (ctx.delay_cycles, ctx.organism) ∈ seen then
      let r := dedupGo seen rest
      (none :: r.1, ctx.id :: r.2)
    else
      let r := dedupGo (seen ++ [(ctx.delay_cycles, ctx.organism)]) rest
      (some ctx :: r.1, r.2)

/-- Exact-state deduplication (src/app/organism.rs
`OrganismCollection::dedup`): keep the first organism of every
`(delay_cycles, organism)` value, blank the rest and drop their ids from
the id map. -/
def OrganismCollection.dedup (c : OrganismCollection) : OrganismCollection :=
  let r := dedupGo [] c.organisms
  { c with organisms := r.1,
           id_map := c.id_map.filter (fun kv => kv.1 ∉ r.2) }

/-- Organism states reachable through the VM and the population driver:
freshly spawned states, results of running any instruction, forked
children, and IP advancement. -/
inductive ReachableState : OrganismState → Prop
  | init (pos : Point) : ReachableState (OrganismState.init pos)
  | step (s s' : OrganismState) (g g' : GridState) (ins : Instruction)
      (resp : Response) (hs : ReachableState s)
      (h : s.run g ins = some (s', g', resp)) : ReachableState s'
  | fork (s s' : OrganismState) (g g' : GridState) (ins : Instruction)
      (child : OrganismState) (hs : ReachableState s)
      (h : s.run g ins = some (s', g', Response.fork child)) :
      ReachableState child
  | adv (s s' : OrganismState) (g : GridState) (hs : ReachableState s)
      (h : s.advance g = some s') : ReachableState s'

/-- The `CursorXTimesY` opcode for a direction and register selector
(`false` for `ax`, `true` for `bx`). -/
def cursorTimesIns : Dir → Bool → Instruction
  | .L, false => .CursorLTimesA
  | .R, false => .CursorRTimesA
  | .U, false => .CursorUTimesA
  | .D, false => .CursorDTimesA
  | .L, true => .CursorLTimesB
  | .R, true => .CursorRTimesB
  | .U, true => .CursorUTimesB
  | .D, true => .CursorDTimesB

/-- The thirteen cursor-movement opcodes. -/
def isCursorMoveIns : Instruction → Bool
  | .CursorL | .CursorR | .CursorU | .CursorD
  | .CursorLTimesA | .CursorRTimesA | .CursorUTimesA | .CursorDTimesA
  | .CursorLTimesB | .CursorRTimesB | .CursorUTimesB | .CursorDTimesB
  | .CursorHome => true
  | _ => false

/-- Count of the successful moves a repeated cursor move can make: follow
the direction for at most `fuel` steps, stopping in front of a Wall byte;
returns the final cursor and the number of cells actually moved. Written
from the wording of the spec for `CursorXTimesA`/`B` to characterise the
loop of `return_repeat_move!`. -/
def specFreeMoves (g : GridState) (d : Dir) : Nat → Point → Point × Nat
  | 0, p => (p, 0)
  | fuel + 1, p =>
    match p.move_in d g.width g.height with
    | none => (p, 0)
    | some np =>
      if g.get np = some Instruction.Wall.asByte then (p, 0)
      else
        let r := specFreeMoves g d fuel np
        (r.1, r.2 + 1)

/-- Two organisms with identical states spawned at the origin
(the dedup scenario of the spec). -/
def scenarioDup : OrganismCollection :=
  ((OrganismCollection.new
    { stream := fun _ => 0, pos := 0, log := [] }).insert
    (OrganismState.init { x := 0, y := 0 })).insert
    (OrganismState.init { x := 0, y := 0 })

/-- Number of full random bytes in a draw log. -/
def countByteDraws (l : List RngEvent) : Nat :=
  l.countP (fun e => match e with | .byteDraw => true | _ => false)

/-- A deterministic all-zero random source, used by the concrete scenarios. -/
def rng0 : RngState :=
  { stream := fun _ => 0, pos := 0, log := [] }

/-- A 1-by-1 grid holding a single `Nop` byte. -/
def grid1x1 : GridState :=
  { width := 1, height := 1, data := [1], rng := rng0,
    write_error_chance := 0, wall_pierce_chance := 0 }

/-- A 2-by-1 grid holding `Nop` then `Wall`. -/
def gridNopWall : GridState :=
  { width := 2, height := 1, data := [1, 4], rng := rng0,
    write_error_chance := 0, wall_pierce_chance := 0 }

/-- A 2-by-1 grid holding `Wall` in both cells. -/
def gridWallWall : GridState :=
  { width := 2, height := 1, data := [4, 4], rng := rng0,
    write_error_chance := 0, wall_pierce_chance := 0 }

/-- A 10-by-10 grid of `Nop` bytes with `FlagFork` at the origin. -/
def gridFork10 : GridState :=
  { width := 10, height := 10, data := 2 :: List.replicate 99 1, rng := rng0,
    write_error_chance := 0, wall_pierce_chance := 0 }

/-- A 10-by-10 grid of `Nop` bytes. -/
def gridNop10 : GridState :=
  { width := 10, height := 10, data := List.replicate 100 1, rng := rng0,
    write_error_chance := 0, wall_pierce_chance := 0 }

/-- Five organisms spawned at the origin of a fresh collection
(the population-cap culling scenario of the spec). -/
def scenarioFive : OrganismCollection :=
  ((((((OrganismCollection.new rng0).insert
    (OrganismState.init { x := 0, y := 0 })).insert
    (OrganismState.init { x := 0, y := 0 })).insert
    (OrganismState.init { x := 0, y := 0 })).insert
    (OrganismState.init { x := 0, y := 0 })).insert
    (OrganismState.init { x := 0, y := 0 }))

/-- Organism at the origin with `ax = 1` (used by the repeat-move
counterexample). -/
def stateAx1 : OrganismState :=
  { OrganismState.init { x := 0, y := 0 } with ax := 1 }

/-- Organism with the cursor at `(5,5)` and an all-`0x42` clipboard of
radius 1 (the paste-square scenario of the spec). -/
def statePaste : OrganismState :=
  { OrganismState.init { x := 5, y := 5 } with
      clipboard := List.replicate 9 66 }

/-! Helper lemmas. -/

/-- Row-major index of an in-range point is within the data vector. -/
theorem rowMajorIdxLt {W H x y : Nat} (hx : x < W) (hy : y < H) :
    y * W + x < W * H := by
  have h1 : y * W + x < (y + 1) * W := by
    rw [Nat.add_mul, Nat.one_mul]; omega
  have h2 : (y + 1) * W ≤ H * W := Nat.mul_le_mul_right _ hy
  calc y * W + x < (y + 1) * W := h1
    _ ≤ H * W := h2
    _ = W * H := Nat.mul_comm _ _

/-- Shape of a successful grid write: the draws appended to the log and
the stream positions consumed depend only on `write_error_chance`. -/
theorem set_rng_shape (g : GridState) (p : Point) (b : Nat)
    (hx : p.x < g.width) (hy : p.y < g.height) :
    ∃ g', g.set p b = some g' ∧
      g'.rng.log = g.rng.log ++
        (if g.write_error_chance = 0 then [RngEvent.byteDraw]
         else [RngEvent.byteDraw, RngEvent.chanceCheck]) ∧
      g'.rng.pos = g.rng.pos +
        (if g.write_error_chance = 0 then 1 else 2) := by
  unfold GridState.set
  rw [if_pos ⟨hx, hy⟩]
  rcases Nat.eq_zero_or_pos g.write_error_chance with hwec | hwec
  · rw [if_neg (by omega)]
    refine ⟨_, rfl, ?_, ?_⟩ <;> simp [genByte, hwec]
  · rw [if_pos hwec]
    refine ⟨_, rfl, ?_, ?_⟩ <;>
      simp [genByte, genChance, Nat.pos_iff_ne_zero.mp hwec, List.append_assoc]

/-- C1: the claim that every Memory-group opcode of the specification is
reachable through the byte-to-opcode table fails: the opcode table of
src/app/instruction.rs ends at `Paste` and defines no instruction of the
Memory category at all, so no byte decodes to a Memory-group opcode (the
`Pointer*`/`Pointee*` match arms of `OrganismState::run` are unreachable). -/
theorem C1_no_byte_decodes_to_memory_opcode :
    ∀ b : Nat, (Instruction.from_byte b).category ≠ Category.Memory := by
  have h : ∀ i : Instruction, i.category ≠ Category.Memory := fun i => by
    cases i <;> decide
  exact fun b => h _

/-- C3 counterexample: the public accessors do not reduce coordinates
modularly. On a 1-by-1 grid, `get` of the out-of-range point `(1,0)`
returns `none` rather than the byte stored at `(1 mod 1, 0 mod 1)`, and
`set` of that point panics rather than succeeding. -/
theorem C3_counterexample :
    grid1x1.get { x := 1, y := 0 } = none ∧
    (grid1x1.set { x := 1, y := 0 } 7).isNone = true := by
  constructor <;> decide

/-- C3 (amended): the grid accessors succeed exactly on in-range points:
for `p.x < W` and `p.y < H` (with the `data.len = W·H` invariant), `get p`
returns the byte stored at row-major position `p.y·W + p.x` and `set p b`
succeeds; modular reduction is performed by the `Point` constructors, not
by the accessors. -/
theorem C3_in_range_access_succeeds (g : GridState) (p : Point) (b : Nat)
    (hx : p.x < g.width) (hy : p.y < g.height)
    (hlen : g.data.length = g.width * g.height) :
    g.get p = g.data.get? (p.y * g.width + p.x) ∧
    (g.get p).isSome = true ∧ (g.set p b).isSome = true := by
  have hidx : p.y * g.width + p.x < g.data.length := by
    rw [hlen]; exact rowMajorIdxLt hx hy
  refine ⟨?_, ?_, ?_⟩
  · unfold GridState.get; rw [if_pos ⟨hx, hy⟩]
  · unfold GridState.get
    rw [if_pos ⟨hx, hy⟩]
    rcases h : g.data.get? (p.y * g.width + p.x) with _ | v
    · rw [List.get?_eq_none] at h; omega
    · rfl
  · obtain ⟨g', hset, -⟩ := set_rng_shape g p b hx hy
    rw [hset]; rfl

/-- C3 witness: the amended statement at the in-range origin of the
1-by-1 grid. -/
theorem C3_witness :
    grid1x1.get { x := 0, y := 0 } =
      grid1x1.data.get? (0 * grid1x1.width + 0) ∧
    (grid1x1.get { x := 0, y := 0 }).isSome = true ∧
    (grid1x1.set { x := 0, y := 0 } 7).isSome = true :=
  C3_in_range_access_succeeds grid1x1 { x := 0, y := 0 } 7 (by decide)
    (by decide) (by decide)

/-- C6: a successful `set` always draws the random `wrong` byte — exactly
one byte draw regardless of `write_error_chance` — and the randomness it
consumes (one position for the byte, plus one position for the fault check
when `write_error_chance` is nonzero) is determined by
`write_error_chance` alone: it does not depend on the stream, hence not on
whether the fault fires, so two runs differing only in fault outcomes
consume the RNG identically. -/
theorem C6_set_draws_wrong_unconditionally (g : GridState) (p : Point)
    (b : Nat) (hx : p.x < g.width) (hy : p.y < g.height) :
    (∃ g', g.set p b = some g' ∧
      g'.rng.log = g.rng.log ++
        (if g.write_error_chance = 0 then [RngEvent.byteDraw]
         else [RngEvent.byteDraw, RngEvent.chanceCheck]) ∧
      countByteDraws g'.rng.log = countByteDraws g.rng.log + 1 ∧
      g'.rng.pos = g.rng.pos +
        (if g.write_error_chance = 0 then 1 else 2)) ∧
    (∀ g₂ : GridState, p.x < g₂.width → p.y < g₂.height →
      g₂.write_error_chance = g.write_error_chance →
      ∃ g' g₂', g.set p b = some g' ∧ g₂.set p b = some g₂' ∧
        g'.rng.pos - g.rng.pos = g₂'.rng.pos - g₂.rng.pos ∧
        countByteDraws g'.rng.log - countByteDraws g.rng.log =
          countByteDraws g₂'.rng.log - countByteDraws g₂.rng.log) := by
  constructor
  · obtain ⟨g', hset, hlog, hpos⟩ := set_rng_shape g p b hx hy
    refine ⟨g', hset, hlog, ?_, hpos⟩
    rw [hlog]
    unfold countByteDraws
    rw [List.countP_append]
    split <;> simp
  · intro g₂ hx₂ hy₂ hwec
    obtain ⟨g', hset, hlog, hpos⟩ := set_rng_shape g p b hx hy
    obtain ⟨g₂', hset₂, hlog₂, hpos₂⟩ := set_rng_shape g₂ p b hx₂ hy₂
    refine ⟨g', g₂', hset, hset₂, ?_, ?_⟩
    · rw [hpos, hpos₂, hwec]; omega
    · rw [hlog, hlog₂, hwec]
      unfold countByteDraws
      rw [List.countP_append, List.countP_append]
      omega

/-- C6 witness: the statement at the origin of the 1-by-1 grid. -/
theorem C6_witness :
    (∃ g', grid1x1.set { x := 0, y := 0 } 7 = some g' ∧
      g'.rng.log = grid1x1.rng.log ++
        (if grid1x1.write_error_chance = 0 then [RngEvent.byteDraw]
         else [RngEvent.byteDraw, RngEvent.chanceCheck]) ∧
      countByteDraws g'.rng.log = countByteDraws grid1x1.rng.log + 1 ∧
      g'.rng.pos = grid1x1.rng.pos +
        (if grid1x1.write_error_chance = 0 then 1 else 2)) ∧
    (∀ g₂ : GridState, 0 < g₂.width → 0 < g₂.height →
      g₂.write_error_chance = grid1x1.write_error_chance →
      ∃ g' g₂', grid1x1.set { x := 0, y := 0 } 7 = some g' ∧
        g₂.set { x := 0, y := 0 } 7 = some g₂' ∧
        g'.rng.pos - grid1x1.rng.pos = g₂'.rng.pos - g₂.rng.pos ∧
        countByteDraws g'.rng.log - countByteDraws grid1x1.rng.log =
          countByteDraws g₂'.rng.log - countByteDraws g₂.rng.log) :=
  C6_set_draws_wrong_unconditionally grid1x1 { x := 0, y := 0 } 7
    (by decide) (by decide)

/-- C8 counterexample: grid construction with width 0 fails by the
assertion panic of `assert_ne!(width * height, 0)`, which is not a
returned `BadWidth`/`BadHeight` error value — no such error values exist
in the source. -/
theorem C8_counterexample :
    GridState.init 0 5 rng0 1 0 = Except.error GridFailure.assertFailed ∧
    GridFailure.assertFailed ≠ GridFailure.badWidth ∧
    GridFailure.assertFailed ≠ GridFailure.badHeight := by
  refine ⟨rfl, by decide, by decide⟩

/-- C8 (amended): grid construction with `W = 0` or `H = 0` always fails,
but by the assertion panic (no grid value is produced, so no partial state
is observable), not by returning `BadWidth`/`BadHeight` errors. -/
theorem C8_zero_dimension_asserts (w h : Nat) (rng : RngState)
    (fill wec : Nat) (hz : w = 0 ∨ h = 0) :
    GridState.init w h rng fill wec = Except.error GridFailure.assertFailed := by
  unfold GridState.init
  rcases hz with hz | hz <;> rw [if_pos (by rw [hz]; ring)]

/-- C8 witness: the amended statement at width 0. -/
theorem C8_witness :
    GridState.init 0 3 rng0 1 0 = Except.error GridFailure.assertFailed :=
  C8_zero_dimension_asserts 0 3 rng0 1 0 (Or.inl rfl)

/-- C2: the population-cap scenario of the spec (five organisms at the
origin executing `FlagFork` under `max_organisms = 3`) does not complete
with `len() = 3`: all five parents fork, so `deaths_required = 5 + 5 - 3 =
7`, the cull loop empties the whole population after five kills and the
sixth call to `kill_random` panics ("nothing to kill"). `run_cycle`
therefore panics (`none`) instead of completing. -/
theorem C2_cap_scenario_panics :
    (scenarioFive.run_cycle gridFork10 (some 3)).isNone = true := by decide

/-- Moving an in-range point one step stays in range. -/
theorem move_in_some (p : Point) (d : Dir) (W H : Nat)
    (hx : p.x < W) (hy : p.y < H) :
    ∃ q, p.move_in d W H = some q ∧ q.x < W ∧ q.y < H := by
  cases d <;>
    simp only [Point.move_in, Point.left, Point.right, Point.up, Point.down,
      if_pos hx, if_pos hy] <;>
    refine ⟨_, rfl, ?_, ?_⟩ <;> dsimp only <;> first
      | (split_ifs <;> omega)
      | omega

/-- An in-range read from a length-respecting grid succeeds. -/
theorem get_some_of_lt (g : GridState) (q : Point) (hx : q.x < g.width)
    (hy : q.y < g.height) (hlen : g.data.length = g.width * g.height) :
    ∃ b, g.get q = some b := by
  unfold GridState.get
  rw [if_pos ⟨hx, hy⟩]
  rcases h : g.data.get? (q.y * g.width + q.x) with _ | v
  · rw [List.get?_eq_none] at h
    have := rowMajorIdxLt hx hy (W := g.width) (H := g.height)
    omega
  · exact ⟨v, rfl⟩

/-- Characterisation of `try_set_cursor` on a successful call: either the
destination is a Wall byte and the state is unchanged, or the cursor moves. -/
theorem try_set_cursor_spec (s : OrganismState) (np : Point) (g : GridState)
    (tc : OrganismState × Bool) (h : s.try_set_cursor np g = some tc) :
    (tc = (s, false) ∧ g.get np = some Instruction.Wall.asByte) ∨
    (tc = ({ s with cursor := np }, true) ∧
      g.get np ≠ some Instruction.Wall.asByte) := by
  unfold OrganismState.try_set_cursor at h
  simp only [Option.bind_eq_bind, Option.bind_eq_some] at h
  obtain ⟨b, hb, h⟩ := h
  by_cases hw : b = Instruction.Wall.asByte
  · rw [if_pos hw] at h
    left
    exact ⟨by simpa using h.symm, by rw [hb, hw]⟩
  · rw [if_neg hw] at h
    right
    refine ⟨by simpa using h.symm, by rw [hb]; simpa using hw⟩

/-- The `return_repeat_move!` loop characterised by the free-move count:
with `n` remaining attempts and `i` attempts already counted, the loop
ends with the cursor advanced by the free-move count `m` and returns
`i + m` when nothing stopped it (`m = n`), or `i + m + 1` when a wall
stopped it (the failed attempt is counted too). -/
theorem repeatMoveGo_spec (d : Dir) (g : GridState)
    (hlen : g.data.length = g.width * g.height) :
    ∀ (n i : Nat) (s : OrganismState), s.cursor.x < g.width →
      s.cursor.y < g.height →
      repeatMoveGo d g n i s = some
        ({ s with cursor := (specFreeMoves g d n s.cursor).1 },
         i + (if (specFreeMoves g d n s.cursor).2 = n then n
              else (specFreeMoves g d n s.cursor).2 + 1)) := by
  intro n
  induction n with
  | zero => intro i s hx hy; rfl
  | succ n ih =>
    intro i s hx hy
    obtain ⟨np, hnp, hnpx, hnpy⟩ :=
      move_in_some s.cursor d g.width g.height hx hy
    obtain ⟨b, hb⟩ := get_some_of_lt g np hnpx hnpy hlen
    by_cases hw : b = Instruction.Wall.asByte
    · have hspec : specFreeMoves g d (n + 1) s.cursor = (s.cursor, 0) := by
        simp only [specFreeMoves, hnp]
        rw [if_pos (by rw [hb, hw])]
      have hL : repeatMoveGo d g (n + 1) i s = some (s, i + 1) := by
        simp [repeatMoveGo, hnp, OrganismState.try_set_cursor, hb, hw]
      rw [hL, hspec]
      rw [if_neg (by omega)]
    · have hspec : specFreeMoves g d (n + 1) s.cursor =
          ((specFreeMoves g d n np).1, (specFreeMoves g d n np).2 + 1) := by
        simp only [specFreeMoves, hnp]
        rw [if_neg (by rw [hb]; simpa using hw)]
      have hL : repeatMoveGo d g (n + 1) i s =
          repeatMoveGo d g n (i + 1) { s with cursor := np } := by
        simp [repeatMoveGo, hnp, OrganismState.try_set_cursor, hb, hw]
      rw [hL, ih (i + 1) { s with cursor := np } hnpx hnpy, hspec]
      have harith : (i + 1) +
          (if (specFreeMoves g d n np).2 = n then n
           else (specFreeMoves g d n np).2 + 1) =
          i + (if (specFreeMoves g d n np).2 + 1 = n + 1 then n + 1
               else (specFreeMoves g d n np).2 + 1 + 1) := by
        split_ifs <;> omega
      rw [harith]

/-- C5 (amended): `CursorXTimesA`/`CursorXTimesB` returns `Delay(i)` where
`i` counts movement attempts rather than successful steps: with `m` the
number of cells the cursor actually advances (stopping in front of a Wall
byte, `m` at most the register), the instruction returns `Delay(m)` when
no wall stopped the repetition (`m` equals the register value) but
`Delay(m + 1)` when a wall stopped it — the failed attempt is also
counted, so in the stop-on-wall case the delay exceeds the number of
cells moved by one. -/
theorem C5_repeat_move_counts_attempts (s : OrganismState) (g : GridState)
    (d : Dir) (useB : Bool) (reg : Nat)
    (hreg : (if useB then s.bx else s.ax) = reg)
    (hx : s.cursor.x < g.width) (hy : s.cursor.y < g.height)
    (hlen : g.data.length = g.width * g.height) :
    s.run g (cursorTimesIns d useB) = some
      ({ s with cursor := (specFreeMoves g d reg s.cursor).1 }, g,
       Response.delay
         (if (specFreeMoves g d reg s.cursor).2 = reg then reg
          else (specFreeMoves g d reg s.cursor).2 + 1)) := by
  have hmain := repeatMoveGo_spec d g hlen reg 0 s hx hy
  cases useB
  · simp only [Bool.false_eq_true, if_false] at hreg
    subst hreg
    cases d <;>
      simp only [cursorTimesIns, OrganismState.run] <;>
      rw [hmain] <;> simp
  · simp only [if_true] at hreg
    subst hreg
    cases d <;>
      simp only [cursorTimesIns, OrganismState.run] <;>
      rw [hmain] <;> simp

/-- C5 counterexample: with a Wall immediately to the right and `ax = 1`,
`CursorRTimesA` returns `Delay(1)` although the cursor moved zero cells —
it is unchanged rather than one step right — refuting the claim that the
cursor has successfully moved exactly `i` cells when `Delay(i)` is
returned. -/
theorem C5_counterexample :
    (stateAx1.run gridNopWall .CursorRTimesA).map
        (fun t => (t.1.cursor, t.2.2)) =
      some ({ x := 0, y := 0 }, Response.delay 1) ∧
    stateAx1.cursor.move_in .R gridNopWall.width gridNopWall.height =
      some { x := 1, y := 0 } ∧
    ({ x := 0, y := 0 } : Point) ≠ { x := 1, y := 0 } := by
  refine ⟨by decide, by decide, by decide⟩

/-- C5 witness: the amended statement at the stop-on-wall input. -/
theorem C5_witness :
    stateAx1.run gridNopWall (cursorTimesIns .R false) = some
      ({ stateAx1 with
          cursor := (specFreeMoves gridNopWall .R 1 stateAx1.cursor).1 },
       gridNopWall,
       Response.delay
         (if (specFreeMoves gridNopWall .R 1 stateAx1.cursor).2 = 1 then 1
          else (specFreeMoves gridNopWall .R 1 stateAx1.cursor).2 + 1)) :=
  C5_repeat_move_counts_attempts stateAx1 gridNopWall .R false 1 (by decide)
    (by decide) (by decide) (by decide)

/-- Row-major indexing is injective on in-range points. -/
theorem rowMajorInj {W : Nat} (p q : Point) (hpx : p.x < W) (hqx : q.x < W)
    (h : p.y * W + p.x = q.y * W + q.x) : p = q := by
  have hy : p.y = q.y := by
    rcases Nat.lt_trichotomy p.y q.y with hlt | heq | hgt
    · have : p.y * W + p.x < q.y * W + q.x := by
        calc p.y * W + p.x < (p.y + 1) * W := by
              rw [Nat.add_mul, Nat.one_mul]; omega
          _ ≤ q.y * W := Nat.mul_le_mul_right _ hlt
          _ ≤ q.y * W + q.x := Nat.le_add_right _ _
      omega
    · exact heq
    · have : q.y * W + q.x < p.y * W + p.x := by
        calc q.y * W + q.x < (q.y + 1) * W := by
              rw [Nat.add_mul, Nat.one_mul]; omega
          _ ≤ p.y * W := Nat.mul_le_mul_right _ hgt
          _ ≤ p.y * W + p.x := Nat.le_add_right _ _
      omega
  have hx : p.x = q.x := by
    rw [hy] at h
    omega
  cases p; cases q
  simp_all

/-- A successful write preserves the dimensions, the data length and both
stochastic rates. -/
theorem set_dims (g : GridState) (p : Point) (v : Nat) (g' : GridState)
    (h : g.set p v = some g') :
    g'.width = g.width ∧ g'.height = g.height ∧
    g'.data.length = g.data.length ∧
    g'.write_error_chance = g.write_error_chance ∧
    g'.wall_pierce_chance = g.wall_pierce_chance := by
  unfold GridState.set at h
  split at h
  · split at h <;>
      (cases h; refine ⟨rfl, rfl, ?_, rfl, rfl⟩; simp)
  · cases h

/-- A successful write changes the grid nowhere but at the written point. -/
theorem set_get_ne (g : GridState) (p : Point) (v : Nat) (g' : GridState)
    (h : g.set p v = some g') (q : Point) (hq : q ≠ p) :
    g'.get q = g.get q := by
  obtain ⟨hW, hH, -, -, -⟩ := set_dims g p v g' h
  unfold GridState.set at h
  split at h
  case isFalse => cases h
  case isTrue hp =>
    have : ∃ w rng', g' = { g with data := g.data.set (p.y * g.width + p.x) w,
                                   rng := rng' } := by
      split at h
      · exact ⟨_, _, (Option.some.injEq _ _ ▸ h.symm : _)⟩
      · exact ⟨_, _, (Option.some.injEq _ _ ▸ h.symm : _)⟩
    obtain ⟨w, rng', rfl⟩ := this
    unfold GridState.get
    by_cases hqr : q.x < g.width ∧ q.y < g.height
    · rw [if_pos hqr, if_pos hqr]
      exact List.get?_set_ne _ _ (fun hc =>
        hq (rowMajorInj q p hqr.1 hp.1 hc.symm ▸ rfl))
    · rw [if_neg hqr, if_neg hqr]

/-- With a zero pierce rate the wall check fails without touching the RNG. -/
theorem pierce_wall_zero (g : GridState) (h : g.wall_pierce_chance = 0) :
    g.pierce_wall = (false, g) := by
  unfold GridState.pierce_wall
  rw [if_neg (by simp [h])]

/-- The paste flood fill never overwrites a cell holding the Wall byte
when the pierce rate is zero: any such cell holds the Wall byte in the
final grid as well. -/
theorem pasteLoop_keeps_walls (cursor low : Point) (r width : Nat)
    (clip : List Nat) (fuel : Nat) (g : GridState)
    (frontier modified : List Point) :
    ∀ gf M, g.wall_pierce_chance = 0 →
      pasteLoop cursor low r width clip fuel g frontier modified =
        some (gf, M) →
      ∀ q, g.get q = some Instruction.Wall.asByte →
        gf.get q = some Instruction.Wall.asByte := by
  induction fuel, g, frontier, modified
    using pasteLoop.induct cursor low r width clip with
  | case1 g frontier modified =>
    intro gf M hz h
    cases h
  | case2 fuel g modified =>
    intro gf M hz h q hq
    simp only [pasteLoop] at h
    cases h
    exact hq
  | case3 fuel g p rest modified hm ih =>
    intro gf M hz h
    simp only [pasteLoop, if_pos hm] at h
    exact ih gf M hz h
  | case4 fuel g p rest modified hm hd ih =>
    intro gf M hz h
    simp only [pasteLoop, if_neg hm, if_pos hd] at h
    exact ih gf M hz h
  | case5 fuel g p rest modified hm hd hgp =>
    intro gf M hz h
    simp only [pasteLoop, if_neg hm, if_neg hd, hgp] at h
    cases h
  | case6 fuel g p rest modified hm hd pc hpc1 rel hclip hwall =>
    intro gf M hz h
    have hpc : pc = (false, g) := pierce_wall_zero g hz
    rw [hpc] at hpc1
    simp at hpc1
  | case7 fuel g p rest modified hm hd pc hpc1 rel v hclip hset hwall =>
    intro gf M hz h
    have hpc : pc = (false, g) := pierce_wall_zero g hz
    rw [hpc] at hpc1
    simp at hpc1
  | case8 fuel g p rest modified hm hd modified' pc hpc1 rel v hclip g2 hset
      pu pd pl pr hpr hpl hpd hpu hwall ih =>
    intro gf M hz h
    have hpc : pc = (false, g) := pierce_wall_zero g hz
    rw [hpc] at hpc1
    simp at hpc1
  | case9 fuel g p rest modified hm hd pc hpc1 rel v hclip g2 hset hmv hwall =>
    intro gf M hz h
    have hpc : pc = (false, g) := pierce_wall_zero g hz
    rw [hpc] at hpc1
    simp at hpc1
  | case10 fuel g p rest modified hm hd modified' pc hnpc hwall ih =>
    intro gf M hz h
    have hpw : g.pierce_wall = (false, g) := pierce_wall_zero g hz
    simp only [pasteLoop, if_neg hm, if_neg hd, hwall, hpw] at h
    have hpc : pc = (false, g) := hpw
    rw [hpc] at ih
    simp only [] at ih
    exact ih gf M hz h
  | case11 fuel g p rest modified hm hd v hgp hnw rel hclip =>
    intro gf M hz h
    have hclip' : clip.get? ((p.sub low g.width g.height).x * width +
        (p.sub low g.width g.height).y) = none := hclip
    simp only [pasteLoop, if_neg hm, if_neg hd, hgp, if_neg hnw, hclip'] at h
    cases h
  | case12 fuel g p rest modified hm hd v hgp hnw rel w hclip hset =>
    intro gf M hz h
    have hclip' : clip.get? ((p.sub low g.width g.height).x * width +
        (p.sub low g.width g.height).y) = some w := hclip
    simp only [pasteLoop, if_neg hm, if_neg hd, hgp, if_neg hnw, hclip',
      hset] at h
    cases h
  | case13 fuel g p rest modified hm hd modified' v hgp hnw rel w hclip g2
      hset pu pd pl pr hpr hpl hpd hpu ih =>
    intro gf M hz h q hq
    have hclip' : clip.get? ((p.sub low g.width g.height).x * width +
        (p.sub low g.width g.height).y) = some w := hclip
    simp only [pasteLoop, if_neg hm, if_neg hd, hgp, if_neg hnw, hclip',
      hset, hpu, hpd, hpl, hpr] at h
    obtain ⟨-, -, -, -, hz2⟩ := set_dims g p w g2 hset
    have hqp : q ≠ p := by
      intro hc
      rw [hc, hgp] at hq
      exact hnw (by cases hq; rfl)
    have hq2 : g2.get q = some Instruction.Wall.asByte := by
      rw [set_get_ne g p w g2 hset q hqp]
      exact hq
    exact ih gf M (by rw [hz2]; exact hz) h q hq2
  | case14 fuel g p rest modified hm hd v hgp hnw rel w hclip g2 hset hmv =>
    intro gf M hz h
    have hclip' : clip.get? ((p.sub low g.width g.height).x * width +
        (p.sub low g.width g.height).y) = some w := hclip
    simp only [pasteLoop, if_neg hm, if_neg hd, hgp, if_neg hnw, hclip',
      hset] at h
    rcases hu : p.up g2.height with _ | pu <;>
      rcases hdn : p.down g2.height with _ | pd <;>
      rcases hl : p.left g2.width with _ | pl <;>
      rcases hr : p.right g2.width with _ | pr <;>
      first
        | exact (hmv _ _ _ _ hu hdn hl hr).elim
        | simp at h

/-- The repeated cursor move leaves the cursor either unchanged or on a
cell it was allowed to enter (not a Wall byte). -/
theorem repeatMoveGo_wall (d : Dir) (g : GridState) :
    ∀ (n i : Nat) (s s' : OrganismState) (j : Nat),
      repeatMoveGo d g n i s = some (s', j) →
      s'.cursor = s.cursor ∨
        g.get s'.cursor ≠ some Instruction.Wall.asByte := by
  intro n
  induction n with
  | zero =>
    intro i s s' j h
    simp only [repeatMoveGo, Option.some.injEq, Prod.mk.injEq] at h
    left
    rw [← h.1]
  | succ n ih =>
    intro i s s' j h
    simp only [repeatMoveGo, Option.bind_eq_bind, Option.bind_eq_some] at h
    obtain ⟨np, hnp, tc, htc, h⟩ := h
    rcases try_set_cursor_spec s np g tc htc with ⟨rfl, hwall⟩ | ⟨rfl, hwall⟩
    · simp only [if_neg (by decide : ¬(false = true))] at h
      simp only [Option.some.injEq, Prod.mk.injEq] at h
      left
      rw [← h.1]
    · simp only [if_pos rfl] at h
      rcases ih (i + 1) { s with cursor := np } s' j h with hc | hc
      · right
        rw [hc]
        exact hwall
      · right
        exact hc

/-- C7 (amended): with `wall_pierce_chance = 0`, no cursor-movement
instruction ever moves the cursor onto a cell holding the Wall byte — if
the cursor ends on a Wall cell it was already there and the move was
refused — and Paste never overwrites a cell holding the Wall byte: every
cell holding the Wall byte before the paste still holds it afterwards. -/
theorem C7_walls_block (s : OrganismState) (g : GridState)
    (ins : Instruction) (s' : OrganismState) (g' : GridState)
    (resp : Response) (hz : g.wall_pierce_chance = 0)
    (hrun : s.run g ins = some (s', g', resp)) :
    (isCursorMoveIns ins = true →
      (s'.cursor = s.cursor ∨
        g'.get s'.cursor ≠ some Instruction.Wall.asByte)) ∧
    (ins = Instruction.Paste →
      ∀ q, g.get q = some Instruction.Wall.asByte →
        g'.get q = some Instruction.Wall.asByte) := by
  cases ins
  all_goals try exact ⟨fun hc => absurd hc (by decide),
    fun hp => Instruction.noConfusion hp⟩
  case CursorL | CursorR | CursorU | CursorD =>
    refine ⟨fun _ => ?_, fun hp => Instruction.noConfusion hp⟩
    simp only [OrganismState.run, Option.bind_eq_bind, Option.bind_eq_some]
      at hrun
    obtain ⟨np, hnp, tc, htc, heq⟩ := hrun
    simp only [Option.some.injEq, Prod.mk.injEq] at heq
    obtain ⟨hs', hg', -⟩ := heq
    rcases try_set_cursor_spec s np g tc htc with ⟨rfl, hwall⟩ | ⟨rfl, hwall⟩
    · left
      rw [← hs']
    · right
      rw [← hg', ← hs']
      exact hwall
  case CursorLTimesA | CursorRTimesA | CursorUTimesA | CursorDTimesA
    | CursorLTimesB | CursorRTimesB | CursorUTimesB | CursorDTimesB =>
    refine ⟨fun _ => ?_, fun hp => Instruction.noConfusion hp⟩
    simp only [OrganismState.run, Option.bind_eq_bind, Option.bind_eq_some]
      at hrun
    obtain ⟨mv, hmv, heq⟩ := hrun
    simp only [Option.some.injEq, Prod.mk.injEq] at heq
    obtain ⟨hs', hg', -⟩ := heq
    rcases repeatMoveGo_wall _ g _ 0 s mv.1 mv.2 hmv with hc | hc
    · left
      rw [← hs', hc]
    · right
      rw [← hg', ← hs']
      exact hc
  case CursorHome =>
    refine ⟨fun _ => ?_, fun hp => Instruction.noConfusion hp⟩
    simp only [OrganismState.run, Option.bind_eq_bind, Option.bind_eq_some]
      at hrun
    obtain ⟨tc, htc, heq⟩ := hrun
    simp only [Option.some.injEq, Prod.mk.injEq] at heq
    obtain ⟨hs', hg', -⟩ := heq
    rcases try_set_cursor_spec s s.ip g tc htc with ⟨rfl, hwall⟩ | ⟨rfl, hwall⟩
    · left
      rw [← hs']
    · right
      rw [← hg', ← hs']
      exact hwall
  case Paste =>
    refine ⟨fun hc => absurd hc (by decide), fun _ => ?_⟩
    simp only [OrganismState.run, Option.bind_eq_bind, Option.bind_eq_some]
      at hrun
    obtain ⟨pr, hpaste, heq⟩ := hrun
    simp only [Option.some.injEq, Prod.mk.injEq] at heq
    obtain ⟨-, hg', -⟩ := heq
    unfold OrganismState.paste at hpaste
    simp only [Option.bind_eq_bind, Option.bind_eq_some] at hpaste
    obtain ⟨r0, -, c1, -, low, -, res, hres, heq2⟩ := hpaste
    simp only [Option.some.injEq] at heq2
    intro q hq
    rw [← hg', ← heq2]
    exact pasteLoop_keeps_walls s.cursor low r0 (r0 * 2 + 1) s.clipboard
      (4 * g.width * g.height + 2) g [s.cursor] [] res.1 res.2 hz
      hres q hq

/-- C7 counterexample: with both cells of a 2-by-1 grid holding the Wall
byte and the cursor already on a Wall cell, `CursorR` (with
`wall_pierce_chance = 0`) leaves the cursor on a cell whose byte equals
the Wall opcode value — the move is refused, so the cursor stays on the
Wall cell it started on. -/
theorem C7_counterexample :
    gridWallWall.wall_pierce_chance = 0 ∧
    ((OrganismState.init { x := 0, y := 0 }).run gridWallWall
        .CursorR).map (fun t => (t.1.cursor, t.2.2)) =
      some ({ x := 0, y := 0 }, Response.delay 0) ∧
    gridWallWall.get { x := 0, y := 0 } =
      some Instruction.Wall.asByte := by
  refine ⟨by decide, by decide, by decide⟩

/-- C7 witness: the amended statement for `CursorL` on the 1-by-1 grid. -/
theorem C7_witness :
    (isCursorMoveIns .CursorL = true →
      ((OrganismState.init { x := 0, y := 0 }).cursor =
          (OrganismState.init { x := 0, y := 0 }).cursor ∨
        grid1x1.get (OrganismState.init { x := 0, y := 0 }).cursor ≠
          some Instruction.Wall.asByte)) ∧
    (Instruction.CursorL = Instruction.Paste →
      ∀ q, grid1x1.get q = some Instruction.Wall.asByte →
        grid1x1.get q = some Instruction.Wall.asByte) :=
  C7_walls_block (OrganismState.init { x := 0, y := 0 }) grid1x1 .CursorL
    (OrganismState.init { x := 0, y := 0 }) grid1x1 (Response.delay 0)
    (by decide) rfl

/-- Per-index characterisation of the dedup traversal: a live slot
survives exactly when its `(delay_cycles, organism)` pair is neither in
the already-seen set nor on an earlier live slot. -/
theorem dedupGo_get :
    ∀ (l : List (Option OrganismContext))
      (seen : List (Nat × OrganismState)) (i : Nat) (ctx : OrganismContext),
      (dedupGo seen l).1.get? i = some (some ctx) ↔
        (l.get? i = some (some ctx) ∧
         (ctx.delay_cycles, ctx.organism) ∉ seen ∧
         ¬∃ j ctx', j < i ∧ l.get? j = some (some ctx') ∧
           (ctx'.delay_cycles, ctx'.organism) =
             (ctx.delay_cycles, ctx.organism))
  | [], seen, i, ctx => by
    simp [dedupGo]
  | none :: rest, seen, i, ctx => by
    cases i with
    | zero => simp [dedupGo]
    | succ i =>
      simp only [dedupGo, List.get?_cons_succ]
      rw [dedupGo_get rest seen i ctx]
      have hex : (∃ j ctx', j < i ∧ rest.get? j = some (some ctx') ∧
            (ctx'.delay_cycles, ctx'.organism) =
              (ctx.delay_cycles, ctx.organism)) ↔
          (∃ j ctx', j < i + 1 ∧
            (none :: rest).get? j = some (some ctx') ∧
            (ctx'.delay_cycles, ctx'.organism) =
              (ctx.delay_cycles, ctx.organism)) := by
        constructor
        · rintro ⟨j, cx, hj, hg, hpair⟩
          exact ⟨j + 1, cx, by omega, by simpa using hg, hpair⟩
        · rintro ⟨j, cx, hj, hg, hpair⟩
          cases j with
          | zero => simp at hg
          | succ j => exact ⟨j, cx, by omega, by simpa using hg, hpair⟩
      rw [hex]
  | some ctx0 :: rest, seen, i, ctx => by
    by_cases hmem : (ctx0.delay_cycles, ctx0.organism) ∈ seen
    · cases i with
      | zero =>
        simp only [dedupGo, if_pos hmem, List.get?_cons_zero]
        constructor
        · intro h
          simp at h
        · rintro ⟨h1, h2, -⟩
          obtain rfl : ctx0 = ctx := by simpa using h1
          exact absurd hmem h2
      | succ i =>
        simp only [dedupGo, if_pos hmem, List.get?_cons_succ]
        rw [dedupGo_get rest seen i ctx]
        constructor
        · rintro ⟨h1, h2, h3⟩
          refine ⟨h1, h2, ?_⟩
          rintro ⟨j, cx, hj, hg, hpair⟩
          cases j with
          | zero =>
            obtain rfl : ctx0 = cx := by simpa using hg
            rw [hpair] at hmem
            exact h2 hmem
          | succ j => exact h3 ⟨j, cx, by omega, by simpa using hg, hpair⟩
        · rintro ⟨h1, h2, h3⟩
          refine ⟨h1, h2, ?_⟩
          rintro ⟨j, cx, hj, hg, hpair⟩
          exact h3 ⟨j + 1, cx, by omega, by simpa using hg, hpair⟩
    · cases i with
      | zero =>
        simp only [dedupGo, if_neg hmem, List.get?_cons_zero]
        constructor
        · intro h
          obtain rfl : ctx0 = ctx := by simpa using h
          refine ⟨rfl, hmem, ?_⟩
          rintro ⟨j, cx, hj, -, -⟩
          omega
        · rintro ⟨h1, -, -⟩
          exact h1
      | succ i =>
        simp only [dedupGo, if_neg hmem, List.get?_cons_succ]
        rw [dedupGo_get rest (seen ++ [(ctx0.delay_cycles, ctx0.organism)])
          i ctx]
        have hmem' : (ctx.delay_cycles, ctx.organism) ∉
              seen ++ [(ctx0.delay_cycles, ctx0.organism)] ↔
            ((ctx.delay_cycles, ctx.organism) ∉ seen ∧
             (ctx0.delay_cycles, ctx0.organism) ≠
               (ctx.delay_cycles, ctx.organism)) := by
          simp only [List.mem_append, List.mem_singleton]
          constructor
          · intro h
            exact ⟨fun hc => h (Or.inl hc), fun hc => h (Or.inr hc.symm)⟩
          · rintro ⟨h1, h2⟩ (hc | hc)
            · exact h1 hc
            · exact h2 hc.symm
        constructor
        · rintro ⟨h1, h2, h3⟩
          rw [hmem'] at h2
          refine ⟨h1, h2.1, ?_⟩
          rintro ⟨j, cx, hj, hg, hpair⟩
          cases j with
          | zero =>
            obtain rfl : ctx0 = cx := by simpa using hg
            exact h2.2 hpair
          | succ j => exact h3 ⟨j, cx, by omega, by simpa using hg, hpair⟩
        · rintro ⟨h1, h2, h3⟩
          refine ⟨h1, ?_, ?_⟩
          · rw [hmem']
            refine ⟨h2, fun hc => h3 ⟨0, ctx0, by omega, by simp, hc⟩⟩
          · rintro ⟨j, cx, hj, hg, hpair⟩
            exact h3 ⟨j + 1, cx, by omega, by simpa using hg, hpair⟩

/-- A traversal over slots whose live pairs are pairwise distinct and
disjoint from the seen set removes nothing. -/
theorem dedupGo_nodup :
    ∀ (l : List (Option OrganismContext))
      (seen : List (Nat × OrganismState)),
      (∀ i j ctx ctx', i < j → l.get? i = some (some ctx) →
        l.get? j = some (some ctx') →
        (ctx.delay_cycles, ctx.organism) ≠
          (ctx'.delay_cycles, ctx'.organism)) →
      (∀ i ctx, l.get? i = some (some ctx) →
        (ctx.delay_cycles, ctx.organism) ∉ seen) →
      dedupGo seen l = (l, [])
  | [], seen, _, _ => rfl
  | none :: rest, seen, hdist, hseen => by
    have ih := dedupGo_nodup rest seen
      (fun i j ctx ctx' hij hi hj =>
        hdist (i + 1) (j + 1) ctx ctx' (by omega) (by simpa using hi)
          (by simpa using hj))
      (fun i ctx hi => hseen (i + 1) ctx (by simpa using hi))
    simp [dedupGo, ih]
  | some ctx0 :: rest, seen, hdist, hseen => by
    have hmem : (ctx0.delay_cycles, ctx0.organism) ∉ seen :=
      hseen 0 ctx0 (by simp)
    have ih := dedupGo_nodup rest
      (seen ++ [(ctx0.delay_cycles, ctx0.organism)])
      (fun i j ctx ctx' hij hi hj =>
        hdist (i + 1) (j + 1) ctx ctx' (by omega) (by simpa using hi)
          (by simpa using hj))
      (fun i ctx hi => by
        simp only [List.mem_append, List.mem_singleton]
        rintro (hc | hc)
        · exact hseen (i + 1) ctx (by simpa using hi) hc
        · exact hdist 0 (i + 1) ctx0 ctx (by omega) (by simp)
            (by simpa using hi) hc.symm)
    simp [dedupGo, if_neg hmem, ih]

/-- Deduplication of a population whose live pairs are already pairwise
distinct changes nothing. -/
theorem dedup_of_distinct (x : OrganismCollection)
    (h : dedupGo [] x.organisms = (x.organisms, [])) : x.dedup = x := by
  unfold OrganismCollection.dedup
  rw [h]
  have hf : x.id_map.filter
      (fun kv => decide (kv.1 ∉ (([] : List OrganismId)))) = x.id_map :=
    List.filter_eq_self.mpr (fun a _ => by simp)
  cases x
  simp_all

/-- C9: `dedup` removes exactly the organisms whose
`(delay_cycles, organism state)` pair — ignoring id, `child_potential` and
`life_potential` — equals that of an earlier organism in the traversal: a
live slot survives iff no earlier live slot carries the same pair; hence
after one `dedup` the surviving pairs are pairwise distinct, and a second
`dedup` is the identity. -/
theorem C9_dedup_exact_and_idempotent (c : OrganismCollection) :
    (∀ i ctx, (c.dedup).organisms.get? i = some (some ctx) ↔
      (c.organisms.get? i = some (some ctx) ∧
       ¬∃ j ctx', j < i ∧ c.organisms.get? j = some (some ctx') ∧
         (ctx'.delay_cycles, ctx'.organism) =
           (ctx.delay_cycles, ctx.organism))) ∧
    (∀ i j ctx ctx', i < j →
      (c.dedup).organisms.get? i = some (some ctx) →
      (c.dedup).organisms.get? j = some (some ctx') →
      (ctx.delay_cycles, ctx.organism) ≠
        (ctx'.delay_cycles, ctx'.organism)) ∧
    (c.dedup).dedup = c.dedup := by
  have hchar : ∀ i ctx, (c.dedup).organisms.get? i = some (some ctx) ↔
      (c.organisms.get? i = some (some ctx) ∧
       ¬∃ j ctx', j < i ∧ c.organisms.get? j = some (some ctx') ∧
         (ctx'.delay_cycles, ctx'.organism) =
           (ctx.delay_cycles, ctx.organism)) := by
    intro i ctx
    have h := dedupGo_get c.organisms [] i ctx
    simp only [List.not_mem_nil, not_false_iff, true_and] at h
    exact h
  have hdist : ∀ i j ctx ctx', i < j →
      (c.dedup).organisms.get? i = some (some ctx) →
      (c.dedup).organisms.get? j = some (some ctx') →
      (ctx.delay_cycles, ctx.organism) ≠
        (ctx'.delay_cycles, ctx'.organism) := by
    intro i j ctx ctx' hij hi hj hpair
    obtain ⟨hi1, -⟩ := (hchar i ctx).mp hi
    obtain ⟨hj1, hj2⟩ := (hchar j ctx').mp hj
    exact hj2 ⟨i, ctx, hij, hi1, hpair⟩
  refine ⟨hchar, hdist, ?_⟩
  exact dedup_of_distinct (c.dedup)
    (dedupGo_nodup (c.dedup).organisms [] hdist (fun i ctx _ => by simp))

/-- C9 witness: on two identical organisms the first survives dedup and a
second dedup is the identity. -/
theorem C9_witness :
    (scenarioDup.dedup).dedup = scenarioDup.dedup ∧
    (scenarioDup.dedup).organisms.get? 0 =
      some (some { id := 0, child_potential := some 4,
                   life_potential := some 100, delay_cycles := 0,
                   organism := OrganismState.init { x := 0, y := 0 } }) := by
  have h := C9_dedup_exact_and_idempotent scenarioDup
  refine ⟨h.2.2, ?_⟩
  refine (h.1 0 _).mpr ⟨by decide, ?_⟩
  rintro ⟨j, cx, hj, -, -⟩
  omega

/-- The repeated cursor move touches only the cursor: storage and memory
pointer are unchanged. -/
theorem repeatMoveGo_frame (d : Dir) (g : GridState) :
    ∀ (n i : Nat) (s s' : OrganismState) (j : Nat),
      repeatMoveGo d g n i s = some (s', j) →
      s'.storage = s.storage ∧ s'.mp = s.mp := by
  intro n
  induction n with
  | zero =>
    intro i s s' j h
    simp only [repeatMoveGo, Option.some.injEq, Prod.mk.injEq] at h
    rw [← h.1]
    exact ⟨rfl, rfl⟩
  | succ n ih =>
    intro i s s' j h
    simp only [repeatMoveGo, Option.bind_eq_bind, Option.bind_eq_some] at h
    obtain ⟨np, hnp, tc, htc, h⟩ := h
    rcases try_set_cursor_spec s np g tc htc with ⟨rfl, -⟩ | ⟨rfl, -⟩
    · simp only [if_neg (by decide : ¬(false = true)), Option.some.injEq,
        Prod.mk.injEq] at h
      rw [← h.1]
      exact ⟨rfl, rfl⟩
    · simp only [if_pos rfl] at h
      exact ih (i + 1) { s with cursor := np } s' j h

/-- Executing any instruction of the table leaves `storage` and `mp`
unchanged, on the organism itself and on any forked child: the Memory
group is absent from the opcode table, and no other instruction touches
the tape. -/
theorem run_frame (s : OrganismState) (g : GridState) (ins : Instruction)
    (s' : OrganismState) (g' : GridState) (resp : Response)
    (hrun : s.run g ins = some (s', g', resp)) :
    s'.storage = s.storage ∧ s'.mp = s.mp ∧
    ∀ c, resp = Response.fork c → c.storage = s.storage ∧ c.mp = s.mp := by
  cases ins
  all_goals try (
    simp only [OrganismState.run, OrganismState.set_r, Option.some.injEq,
      Prod.mk.injEq] at hrun
    obtain ⟨h1, h2, h3⟩ := hrun
    subst h1
    subst h3
    refine ⟨?_, ?_, ?_⟩
    · first | rfl | (split <;> rfl)
    · first | rfl | (split <;> rfl)
    · rintro c hc
      first
        | exact Response.noConfusion hc
        | (cases hc; exact ⟨rfl, rfl⟩))
  case CondHalt =>
    simp only [OrganismState.run] at hrun
    split at hrun <;>
      simp only [Option.some.injEq, Prod.mk.injEq] at hrun <;>
      obtain ⟨h1, h2, h3⟩ := hrun <;>
      subst h1 <;> subst h3 <;>
      exact ⟨rfl, rfl, fun c hc => Response.noConfusion hc⟩
  case CursorL | CursorR | CursorU | CursorD =>
    simp only [OrganismState.run, Option.bind_eq_bind, Option.bind_eq_some]
      at hrun
    obtain ⟨np, hnp, tc, htc, heq⟩ := hrun
    simp only [Option.some.injEq, Prod.mk.injEq] at heq
    obtain ⟨hs', -, hresp⟩ := heq
    subst hs'
    refine ⟨?_, ?_, fun c hc => Response.noConfusion (hresp ▸ hc)⟩ <;>
      rcases try_set_cursor_spec s np g tc htc with ⟨rfl, -⟩ | ⟨rfl, -⟩ <;> rfl
  case CursorHome =>
    simp only [OrganismState.run, Option.bind_eq_bind, Option.bind_eq_some]
      at hrun
    obtain ⟨tc, htc, heq⟩ := hrun
    simp only [Option.some.injEq, Prod.mk.injEq] at heq
    obtain ⟨hs', -, hresp⟩ := heq
    subst hs'
    refine ⟨?_, ?_, fun c hc => Response.noConfusion (hresp ▸ hc)⟩ <;>
      rcases try_set_cursor_spec s s.ip g tc htc with ⟨rfl, -⟩ | ⟨rfl, -⟩ <;>
      rfl
  case CursorLTimesA | CursorRTimesA | CursorUTimesA | CursorDTimesA
    | CursorLTimesB | CursorRTimesB | CursorUTimesB | CursorDTimesB =>
    simp only [OrganismState.run, Option.bind_eq_bind, Option.bind_eq_some]
      at hrun
    obtain ⟨mv, hmv, heq⟩ := hrun
    simp only [Option.some.injEq, Prod.mk.injEq] at heq
    obtain ⟨hs', -, hresp⟩ := heq
    subst hs'
    obtain ⟨hst, hmp⟩ := repeatMoveGo_frame _ g _ 0 s mv.1 mv.2 hmv
    exact ⟨hst, hmp, fun c hc => Response.noConfusion (hresp ▸ hc)⟩
  case CursorA | CursorB =>
    simp only [OrganismState.run, Option.bind_eq_bind, Option.bind_eq_some]
      at hrun
    obtain ⟨g2, hg2, heq⟩ := hrun
    simp only [Option.some.injEq, Prod.mk.injEq] at heq
    obtain ⟨hs', -, hresp⟩ := heq
    subst hs'
    exact ⟨rfl, rfl, fun c hc => Response.noConfusion (hresp ▸ hc)⟩
  case CursorToA | CursorToB =>
    simp only [OrganismState.run, Option.bind_eq_bind, Option.bind_eq_some]
      at hrun
    obtain ⟨b, hb, heq⟩ := hrun
    simp only [Option.some.injEq, Prod.mk.injEq] at heq
    obtain ⟨hs', -, hresp⟩ := heq
    subst hs'
    exact ⟨rfl, rfl, fun c hc => Response.noConfusion (hresp ▸ hc)⟩
  case Copy =>
    simp only [OrganismState.run, Option.bind_eq_bind, Option.bind_eq_some]
      at hrun
    obtain ⟨pts, hpts, bytes, hbytes, heq⟩ := hrun
    simp only [Option.some.injEq, Prod.mk.injEq] at heq
    obtain ⟨hs', -, hresp⟩ := heq
    subst hs'
    exact ⟨rfl, rfl, fun c hc => Response.noConfusion (hresp ▸ hc)⟩
  case Paste =>
    simp only [OrganismState.run, Option.bind_eq_bind, Option.bind_eq_some]
      at hrun
    obtain ⟨pr, hpr, heq⟩ := hrun
    simp only [Option.some.injEq, Prod.mk.injEq] at heq
    obtain ⟨hs', -, hresp⟩ := heq
    subst hs'
    exact ⟨rfl, rfl, fun c hc => Response.noConfusion (hresp ▸ hc)⟩

/-- C10: executing the instruction decoded from any byte leaves `storage`
and `mp` unchanged (also on a forked child), and consequently every
organism state reachable through the VM and the population driver — fresh
spawns, instruction steps, forked children, IP advancement — has empty
storage and `mp = 0`. The Memory-group arms of the source's dispatcher
are unreachable, so the tape is never touched. -/
theorem C10_tape_never_touched :
    (∀ (b : Nat) (s : OrganismState) (g : GridState) (s' : OrganismState)
       (g' : GridState) (resp : Response),
       s.run g (Instruction.from_byte b) = some (s', g', resp) →
       (s'.storage = s.storage ∧ s'.mp = s.mp ∧
        ∀ c, resp = Response.fork c →
          c.storage = s.storage ∧ c.mp = s.mp)) ∧
    (∀ s, ReachableState s → s.storage = [] ∧ s.mp = 0) := by
  constructor
  · intro b s g s' g' resp h
    exact run_frame s g (Instruction.from_byte b) s' g' resp h
  · intro s hr
    induction hr with
    | init pos => exact ⟨rfl, rfl⟩
    | step s s' g g' ins resp hs h ih =>
      obtain ⟨h1, h2, -⟩ := run_frame s g ins s' g' resp h
      rw [h1, h2]
      exact ih
    | fork s s' g g' ins child hs h ih =>
      obtain ⟨-, -, h3⟩ := run_frame s g ins s' g' (Response.fork child) h
      obtain ⟨h1, h2⟩ := h3 child rfl
      rw [h1, h2]
      exact ih
    | adv s s' g hs h ih =>
      unfold OrganismState.advance at h
      rcases hmv : s.ip.move_in s.dir g.width g.height with _ | p <;>
        rw [hmv] at h
      · exact Option.noConfusion h
      · simp only [Option.map_some'] at h
        rw [← (by simpa using h : { s with ip := p } = s')]
        exact ih

/-- C10 witness: a freshly spawned organism is reachable and has empty
storage and zero memory pointer. -/
theorem C10_witness :
    (OrganismState.init { x := 0, y := 0 }).storage = [] ∧
    (OrganismState.init { x := 0, y := 0 }).mp = 0 :=
  C10_tape_never_touched.2 (OrganismState.init { x := 0, y := 0 })
    (ReachableState.init { x := 0, y := 0 })

/-- Closed form of the modular distance in terms of `min`/`max`. -/
theorem dist_modular_eq (a b m : Nat) :
    dist_modular a b m = min (max a b - min a b) (min a b + m - max a b) := by
  unfold dist_modular min_max
  rcases Nat.lt_or_ge b a with h | h
  · rw [if_pos h, Nat.max_eq_left h.le, Nat.min_eq_right h.le]
  · rw [if_neg (by omega), Nat.max_eq_right h, Nat.min_eq_left h]

/-- The modular distance from a number to itself is zero. -/
theorem dist_modular_self (a m : Nat) : dist_modular a a m = 0 := by
  rw [dist_modular_eq]
  omega

/-- In-range numbers at modular distance zero are equal. -/
theorem dist_modular_zero (a b m : Nat) (ha : a < m) (hb : b < m)
    (h : dist_modular a b m = 0) : a = b := by
  rw [dist_modular_eq] at h
  omega

set_option maxHeartbeats 3200000 in
/-- From any number at positive small modular distance from a target, one
of the two unit steps (decrement or increment, wrapping) reduces the
distance by one. -/
theorem dist_modular_step (a b m : Nat) (ha : a < m) (hb : b < m)
    (hpos : 0 < dist_modular a b m) (hsmall : 2 * dist_modular a b m ≤ m) :
    dist_modular (if a = 0 then m - 1 else a - 1) b m =
      dist_modular a b m - 1 ∨
    dist_modular (if a = m - 1 then 0 else a + 1) b m =
      dist_modular a b m - 1 := by
  simp only [dist_modular_eq] at hpos hsmall ⊢
  split_ifs <;> omega

/-- Modular subtraction of the low corner stays within the selection
square: a coordinate at modular distance at most `r` from the cursor
coordinate lands in `0..2r` relative to the low corner. -/
theorem sub_modular_low_bound (p c r m : Nat) (hp : p < m) (hc : c < m)
    (hr : 2 * r + 1 ≤ m) (hd : dist_modular p c m ≤ r) :
    sub_modular p (if c < r then m + c - r else c - r) m ≤ 2 * r := by
  rw [dist_modular_eq] at hd
  unfold sub_modular
  split_ifs <;> omega

/-- With a zero write-error rate, a successful write stores exactly the
requested byte at the requested point. -/
theorem set_get_self (g : GridState) (p : Point) (v : Nat) (g' : GridState)
    (hwec : g.write_error_chance = 0)
    (hlen : g.data.length = g.width * g.height)
    (hset : g.set p v = some g') : g'.get p = some v := by
  unfold GridState.set at hset
  split at hset
  case isFalse => cases hset
  case isTrue hp =>
    rw [if_neg (by omega)] at hset
    cases hset
    unfold GridState.get
    rw [if_pos hp]
    exact List.get?_set_eq_of_lt v (by rw [hlen]; exact rowMajorIdxLt hp.1 hp.2)

/-- Well-formed four-neighbour reachability inside a modular Chebyshev
ball: any predicate holding at the centre and closed under in-ball unit
moves holds on the whole ball (the ball fits in the torus, so distances
are unambiguous). -/
theorem ball_reach (c : Point) (r W H : Nat) (hW : 2 * r + 1 ≤ W)
    (hH : 2 * r + 1 ≤ H) (hccx : c.x < W) (hccy : c.y < H)
    (S : Point → Prop) (hc : S c)
    (hclosed : ∀ q, S q → ∀ d nq, q.move_in d W H = some nq →
      nq.dist_to c W H ≤ r → S nq) :
    ∀ q, q.x < W → q.y < H → q.dist_to c W H ≤ r → S q := by
  have key : ∀ n q, q.x < W → q.y < H → q.dist_to c W H ≤ r →
      dist_modular q.x c.x W + dist_modular q.y c.y H = n → S q := by
    intro n
    induction n using Nat.strong_induction_on with
    | _ n ih =>
      intro q hqx hqy hqd hn
      have hdx : dist_modular q.x c.x W ≤ r := le_trans (le_max_left _ _) hqd
      have hdy : dist_modular q.y c.y H ≤ r := le_trans (le_max_right _ _) hqd
      by_cases hx0 : dist_modular q.x c.x W = 0
      · by_cases hy0 : dist_modular q.y c.y H = 0
        · have hex : q.x = c.x := dist_modular_zero _ _ _ hqx hccx hx0
          have hey : q.y = c.y := dist_modular_zero _ _ _ hqy hccy hy0
          have : q = c := by
            cases q; cases c
            simp_all
          rw [this]
          exact hc
        · -- step in y
          rcases dist_modular_step q.y c.y H hqy hccy (by omega) (by omega)
            with hstep | hstep
          · -- the up-step reduces the distance; its inverse is a down move
            set y' := if q.y = 0 then H - 1 else q.y - 1 with hy'
            have hy'lt : y' < H := by rw [hy']; split_ifs <;> omega
            have hq' : S ⟨q.x, y'⟩ := by
              refine ih (dist_modular q.x c.x W + dist_modular y' c.y H)
                (by omega) ⟨q.x, y'⟩ hqx hy'lt ?_ rfl
              unfold Point.dist_to
              simp only []
              omega
            have hmv : (⟨q.x, y'⟩ : Point).move_in .D W H = some q := by
              simp only [Point.move_in, Point.down, if_pos hy'lt]
              have hyy : (if y' = H - 1 then 0 else y' + 1) = q.y := by
                rw [hy']
                by_cases hc0 : q.y = 0 <;> simp [hc0] <;>
                  (try split_ifs) <;> omega
              rw [hyy]
            exact hclosed ⟨q.x, y'⟩ hq' .D q hmv hqd
          · set y' := if q.y = H - 1 then 0 else q.y + 1 with hy'
            have hy'lt : y' < H := by rw [hy']; split_ifs <;> omega
            have hq' : S ⟨q.x, y'⟩ := by
              refine ih (dist_modular q.x c.x W + dist_modular y' c.y H)
                (by omega) ⟨q.x, y'⟩ hqx hy'lt ?_ rfl
              unfold Point.dist_to
              simp only []
              omega
            have hmv : (⟨q.x, y'⟩ : Point).move_in .U W H = some q := by
              simp only [Point.move_in, Point.up, if_pos hy'lt]
              have hyy : (if y' = 0 then H - 1 else y' - 1) = q.y := by
                rw [hy']
                by_cases hc0 : q.y = H - 1 <;> simp [hc0] <;>
                  (try split_ifs) <;> omega
              rw [hyy]
            exact hclosed ⟨q.x, y'⟩ hq' .U q hmv hqd
      · -- step in x
        rcases dist_modular_step q.x c.x W hqx hccx (by omega) (by omega)
          with hstep | hstep
        · set x' := if q.x = 0 then W - 1 else q.x - 1 with hx'
          have hx'lt : x' < W := by rw [hx']; split_ifs <;> omega
          have hq' : S ⟨x', q.y⟩ := by
            refine ih (dist_modular x' c.x W + dist_modular q.y c.y H)
              (by omega) ⟨x', q.y⟩ hx'lt hqy ?_ rfl
            unfold Point.dist_to
            simp only []
            omega
          have hmv : (⟨x', q.y⟩ : Point).move_in .R W H = some q := by
            simp only [Point.move_in, Point.right, if_pos hx'lt]
            have hxx : (if x' = W - 1 then 0 else x' + 1) = q.x := by
              rw [hx']
              by_cases hc0 : q.x = 0 <;> simp [hc0] <;>
                (try split_ifs) <;> omega
            rw [hxx]
          exact hclosed ⟨x', q.y⟩ hq' .R q hmv hqd
        · set x' := if q.x = W - 1 then 0 else q.x + 1 with hx'
          have hx'lt : x' < W := by rw [hx']; split_ifs <;> omega
          have hq' : S ⟨x', q.y⟩ := by
            refine ih (dist_modular x' c.x W + dist_modular q.y c.y H)
              (by omega) ⟨x', q.y⟩ hx'lt hqy ?_ rfl
            unfold Point.dist_to
            simp only []
            omega
          have hmv : (⟨x', q.y⟩ : Point).move_in .L W H = some q := by
            simp only [Point.move_in, Point.left, if_pos hx'lt]
            have hxx : (if x' = 0 then W - 1 else x' - 1) = q.x := by
              rw [hx']
              by_cases hc0 : q.x = W - 1 <;> simp [hc0] <;>
                (try split_ifs) <;> omega
            rw [hxx]
          exact hclosed ⟨x', q.y⟩ hq' .L q hmv hqd
  intro q hqx hqy hqd
  exact key _ q hqx hqy hqd rfl

/-- An in-range point can always move up, staying in range. -/
theorem up_exists (p : Point) (h : Nat) (hy : p.y < h) :
    ∃ q, p.up h = some q ∧ q.x = p.x ∧ q.y < h := by
  unfold Point.up
  rw [if_pos hy]
  exact ⟨_, rfl, rfl, by dsimp only; split_ifs <;> omega⟩

/-- An in-range point can always move down, staying in range. -/
theorem down_exists (p : Point) (h : Nat) (hy : p.y < h) :
    ∃ q, p.down h = some q ∧ q.x = p.x ∧ q.y < h := by
  unfold Point.down
  rw [if_pos hy]
  exact ⟨_, rfl, rfl, by dsimp only; split_ifs <;> omega⟩

/-- An in-range point can always move left, staying in range. -/
theorem left_exists (p : Point) (w : Nat) (hx : p.x < w) :
    ∃ q, p.left w = some q ∧ q.y = p.y ∧ q.x < w := by
  unfold Point.left
  rw [if_pos hx]
  exact ⟨_, rfl, rfl, by dsimp only; split_ifs <;> omega⟩

/-- An in-range point can always move right, staying in range. -/
theorem right_exists (p : Point) (w : Nat) (hx : p.x < w) :
    ∃ q, p.right w = some q ∧ q.y = p.y ∧ q.x < w := by
  unfold Point.right
  rw [if_pos hx]
  exact ⟨_, rfl, rfl, by dsimp only; split_ifs <;> omega⟩

/-- A duplicate-free list of in-range points has at most `W·H` elements. -/
theorem nodup_points_length (l : List Point) (W H : Nat) (hnd : l.Nodup)
    (hin : ∀ q ∈ l, q.x < W ∧ q.y < H) : l.length ≤ W * H := by
  have hmap : (l.map (fun q => q.y * W + q.x)).Nodup := by
    refine List.Nodup.map_on ?_ hnd
    intro a ha b hb hab
    exact rowMajorInj a b (hin a ha).1 (hin b hb).1 hab
  have hsub : (l.map (fun q => q.y * W + q.x)).toFinset ⊆
      Finset.range (W * H) := by
    intro n hn
    rw [List.mem_toFinset, List.mem_map] at hn
    obtain ⟨q, hq, rfl⟩ := hn
    rw [Finset.mem_range]
    exact rowMajorIdxLt (hin q hq).1 (hin q hq).2
  have := Finset.card_le_card hsub
  rw [List.toFinset_card_of_nodup hmap, Finset.card_range,
    List.length_map] at this
  exact this

/-- Full run of the paste flood fill in the wall-free, fault-free case:
the loop terminates within the given fuel and the set `M` of visited
points is closed under in-ball moves, contains every in-ball frontier
point, contains only in-ball points (beyond the initially marked ones),
and the final grid holds the clipboard bytes at the fresh marks and the
old bytes elsewhere. -/
theorem pasteLoop_run (c low : Point) (r wdt : Nat) (clip : List Nat)
    (W H : Nat) (g₀ : GridState)
    (hW : 2 * r + 1 ≤ W) (hH : 2 * r + 1 ≤ H)
    (hcx : c.x < W) (hcy : c.y < H)
    (hwdt : wdt = 2 * r + 1)
    (hcliplen : clip.length = (2 * r + 1) ^ 2)
    (hlow : low = { x := if c.x < r then W + c.x - r else c.x - r,
                    y := if c.y < r then H + c.y - r else c.y - r })
    (hnowall : ∀ p : Point, p.x < W → p.y < H → p.dist_to c W H ≤ r →
      g₀.get p ≠ some Instruction.Wall.asByte) :
    ∀ (fuel : Nat) (g : GridState) (frontier modified : List Point),
      g.width = W → g.height = H → g.data.length = W * H →
      g.write_error_chance = 0 →
      (∀ q, q ∉ modified → g.get q = g₀.get q) →
      (∀ q ∈ frontier, q.x < W ∧ q.y < H) →
      (∀ q ∈ modified, q.x < W ∧ q.y < H ∧ q.dist_to c W H ≤ r) →
      modified.Nodup →
      frontier.length + 4 * (W * H - modified.length) < fuel →
      ∃ gf M, pasteLoop c low r wdt clip fuel g frontier modified =
          some (gf, M) ∧
        (∀ q ∈ modified, q ∈ M) ∧
        (∀ q ∈ M, q ∈ modified ∨
          (q.x < W ∧ q.y < H ∧ q.dist_to c W H ≤ r)) ∧
        (∀ q, (q ∈ modified ∨ q ∉ M) → gf.get q = g.get q) ∧
        (∀ q ∈ M, q ∉ modified →
          gf.get q = clip.get?
            ((q.sub low W H).x * wdt + (q.sub low W H).y)) ∧
        (∀ q ∈ frontier, q.dist_to c W H ≤ r → q ∈ M) ∧
        (∀ q ∈ M, q ∉ modified → ∀ d nq, q.move_in d W H = some nq →
          nq.dist_to c W H ≤ r → nq ∈ M) := by
  intro fuel
  induction fuel with
  | zero =>
    intro g frontier modified _ _ _ _ _ _ _ _ hfuel
    omega
  | succ fuel ih =>
    intro g frontier modified hgW hgH hglen hgwec hg hfr hmod hnd hfuel
    cases frontier with
    | nil =>
      refine ⟨g, modified, rfl, fun q hq => hq, fun q hq => Or.inl hq,
        fun q _ => rfl, fun q hq hnq => absurd hq hnq,
        fun q hq => absurd hq (List.not_mem_nil q),
        fun q hq hnq => absurd hq hnq⟩
    | cons p rest =>
      have hpin : p.x < W ∧ p.y < H := hfr p (List.mem_cons_self p rest)
      have hfr' : ∀ q ∈ rest, q.x < W ∧ q.y < H :=
        fun q hq => hfr q (List.mem_cons_of_mem p hq)
      by_cases hm : p ∈ modified
      · obtain ⟨gf, M, hloop, h1, h2, h3, h4, h5, h6⟩ :=
          ih g rest modified hgW hgH hglen hgwec hg hfr' hmod hnd
            (by simp only [List.length_cons] at hfuel; omega)
        refine ⟨gf, M, ?_, h1, h2, h3, h4, ?_, h6⟩
        · simp only [pasteLoop, if_pos hm]
          exact hloop
        · intro q hq hqd
          rcases List.mem_cons.mp hq with rfl | hq
          · exact h1 q hm
          · exact h5 q hq hqd
      · by_cases hdist : r < p.dist_to c W H
        · obtain ⟨gf, M, hloop, h1, h2, h3, h4, h5, h6⟩ :=
            ih g rest modified hgW hgH hglen hgwec hg hfr' hmod hnd
              (by simp only [List.length_cons] at hfuel; omega)
          refine ⟨gf, M, ?_, h1, h2, h3, h4, ?_, h6⟩
          · simp only [pasteLoop, if_neg hm, hgW, hgH, if_pos hdist]
            exact hloop
          · intro q hq hqd
            rcases List.mem_cons.mp hq with rfl | hq
            · omega
            · exact h5 q hq hqd
        · -- the point is fresh and in the ball: it is written
          have hdball : p.dist_to c W H ≤ r := by omega
          have hgp0 : g.get p = g₀.get p := hg p hm
          obtain ⟨b, hb⟩ := get_some_of_lt g p (by rw [hgW]; exact hpin.1)
            (by rw [hgH]; exact hpin.2) (by rw [hgW, hgH]; exact hglen)
          have hbw : ¬(b = Instruction.Wall.asByte) := by
            intro hc
            exact hnowall p hpin.1 hpin.2 hdball (by rw [← hgp0, hb, hc])
          -- the clipboard index is in range
          have hdx : dist_modular p.x c.x W ≤ r :=
            le_trans (le_max_left _ _) hdball
          have hdy : dist_modular p.y c.y H ≤ r :=
            le_trans (le_max_right _ _) hdball
          have hrelx : (p.sub low W H).x ≤ 2 * r := by
            rw [hlow]
            exact sub_modular_low_bound p.x c.x r W hpin.1 hcx hW hdx
          have hrely : (p.sub low W H).y ≤ 2 * r := by
            rw [hlow]
            exact sub_modular_low_bound p.y c.y r H hpin.2 hcy hH hdy
          have hidx : (p.sub low W H).x * wdt + (p.sub low W H).y <
              clip.length := by
            rw [hcliplen, pow_two, ← hwdt]
            exact rowMajorIdxLt (by omega) (by omega)
          obtain ⟨v, hclipv⟩ : ∃ v, clip.get?
              ((p.sub low W H).x * wdt + (p.sub low W H).y) = some v := by
            rcases hgv : clip.get?
                ((p.sub low W H).x * wdt + (p.sub low W H).y) with _ | v
            · rw [List.get?_eq_none] at hgv
              omega
            · exact ⟨v, rfl⟩
          obtain ⟨g2, hset, -, -⟩ := set_rng_shape g p v
            (by rw [hgW]; exact hpin.1) (by rw [hgH]; exact hpin.2)
          obtain ⟨hg2W, hg2H, hg2len, hg2wec, -⟩ := set_dims g p v g2 hset
          obtain ⟨pu, hpu, hpux, hpuy⟩ := up_exists p g2.height
            (by rw [hg2H, hgH]; exact hpin.2)
          obtain ⟨pd, hpd, hpdx, hpdy⟩ := down_exists p g2.height
            (by rw [hg2H, hgH]; exact hpin.2)
          obtain ⟨pl, hpl, hply, hplx⟩ := left_exists p g2.width
            (by rw [hg2W, hgW]; exact hpin.1)
          obtain ⟨pr, hpr, hpry, hprx⟩ := right_exists p g2.width
            (by rw [hg2W, hgW]; exact hpin.1)
          rw [hg2H, hgH] at hpuy hpdy
          rw [hg2W, hgW] at hplx hprx
          -- invariants for the recursive call
          have hg' : ∀ q, q ∉ modified ++ [p] → g2.get q = g₀.get q := by
            intro q hq
            simp only [List.mem_append, List.mem_singleton, not_or] at hq
            rw [set_get_ne g p v g2 hset q hq.2]
            exact hg q hq.1
          have hfr2 : ∀ q ∈ pr :: pl :: pd :: pu :: rest,
              q.x < W ∧ q.y < H := by
            intro q hq
            simp only [List.mem_cons] at hq
            rcases hq with rfl | rfl | rfl | rfl | hq
            · exact ⟨hprx, hpry ▸ hpin.2⟩
            · exact ⟨hplx, hply ▸ hpin.2⟩
            · exact ⟨hpdx ▸ hpin.1, hpdy⟩
            · exact ⟨hpux ▸ hpin.1, hpuy⟩
            · exact hfr' q hq
          have hmod' : ∀ q ∈ modified ++ [p],
              q.x < W ∧ q.y < H ∧ q.dist_to c W H ≤ r := by
            intro q hq
            simp only [List.mem_append, List.mem_singleton] at hq
            rcases hq with hq | rfl
            · exact hmod q hq
            · exact ⟨hpin.1, hpin.2, hdball⟩
          have hnd' : (modified ++ [p]).Nodup := by
            rw [List.nodup_append]
            exact ⟨hnd, List.nodup_singleton p, by
              intro a ha hb
              rw [List.mem_singleton] at hb
              rw [hb] at ha
              exact hm ha⟩
          have hcard : modified.length + 1 ≤ W * H := by
            have := nodup_points_length (modified ++ [p]) W H hnd'
              (fun q hq => ⟨(hmod' q hq).1, (hmod' q hq).2.1⟩)
            rw [List.length_append, List.length_singleton] at this
            omega
          obtain ⟨gf, M, hloop, h1, h2, h3, h4, h5, h6⟩ :=
            ih g2 (pr :: pl :: pd :: pu :: rest) (modified ++ [p])
              (hg2W.trans hgW) (hg2H.trans hgH)
              (by rw [hg2len]; exact hglen)
              (hg2wec.trans hgwec) hg' hfr2 hmod' hnd'
              (by
                simp only [List.length_cons, List.length_append,
                  List.length_singleton] at hfuel ⊢
                omega)
          have hpM : p ∈ M := h1 p (by simp)
          refine ⟨gf, M, ?_, ?_, ?_, ?_, ?_, ?_, ?_⟩
          · -- one unfolding step reaches the recursive call
            simp only [pasteLoop, if_neg hm, hgW, hgH, if_neg hdist, hb,
              if_neg hbw, hclipv, hset, hpu, hpd, hpl, hpr]
            exact hloop
          · intro q hq
            exact h1 q (by simp [hq])
          · intro q hq
            rcases h2 q hq with hq2 | hq2
            · simp only [List.mem_append, List.mem_singleton] at hq2
              rcases hq2 with hq2 | rfl
              · exact Or.inl hq2
              · exact Or.inr ⟨hpin.1, hpin.2, hdball⟩
            · exact Or.inr hq2
          · intro q hq
            have hqne : q ≠ p := by
              rintro rfl
              rcases hq with hq | hq
              · exact hm hq
              · exact hq hpM
            have := h3 q (by
              rcases hq with hq | hq
              · exact Or.inl (by simp [hq])
              · exact Or.inr hq)
            rw [this]
            exact set_get_ne g p v g2 hset q hqne
          · intro q hq hqnm
            by_cases hqp : q = p
            · subst hqp
              have hgf : gf.get q = g2.get q := h3 q (Or.inl (by simp))
              rw [hgf, set_get_self g q v g2 hgwec
                (by rw [hgW, hgH]; exact hglen) hset, hclipv]
            · exact h4 q hq (by
                simp only [List.mem_append, List.mem_singleton, not_or]
                exact ⟨hqnm, hqp⟩)
          · intro q hq hqd
            rcases List.mem_cons.mp hq with rfl | hq
            · exact hpM
            · exact h5 q (by simp [hq]) hqd
          · intro q hq hqnm d nq hmv hnqd
            by_cases hqp : q = p
            · subst hqp
              have hnqM : nq ∈ pr :: pl :: pd :: pu :: rest → nq ∈ M :=
                fun hin => h5 nq hin hnqd
              cases d with
              | U =>
                simp only [Point.move_in] at hmv
                rw [show q.up H = some pu from by rw [← hgH, ← hg2H]; exact hpu]
                  at hmv
                cases hmv
                exact hnqM (by simp)
              | D =>
                simp only [Point.move_in] at hmv
                rw [show q.down H = some pd from by
                  rw [← hgH, ← hg2H]; exact hpd] at hmv
                cases hmv
                exact hnqM (by simp)
              | L =>
                simp only [Point.move_in] at hmv
                rw [show q.left W = some pl from by
                  rw [← hgW, ← hg2W]; exact hpl] at hmv
                cases hmv
                exact hnqM (by simp)
              | R =>
                simp only [Point.move_in] at hmv
                rw [show q.right W = some pr from by
                  rw [← hgW, ← hg2W]; exact hpr] at hmv
                cases hmv
                exact hnqM (by simp)
            · exact h6 q hq (by
                simp only [List.mem_append, List.mem_singleton, not_or]
                exact ⟨hqnm, hqp⟩) d nq hmv hnqd

/-- The recovered radius of a clipboard of length `(2r+1)^2` (with the
data-model bound `r ≤ 10`) is `r`. -/
theorem selection_radius_len (l : List Nat) (r : Nat) (hr : r ≤ 10)
    (h : l.length = (2 * r + 1) ^ 2) : selection_radius l = some r := by
  unfold selection_radius
  rw [h]
  interval_cases r <;> decide

/-- C4: with no write faults, no wall piercing, a radius-`r` clipboard
(`r ≤ 10` per the data model), a grid at least `2r+1` wide and tall,
and no Wall byte within modular Chebyshev distance `r` of the cursor,
`Paste` writes `clipboard[(p − low).x·(2r+1) + (p − low).y]` (with
`low = cursor − (r,r)`, modular) at every cell `p` within distance `r` of
the cursor, leaves every other cell unchanged, and returns
`Delay(2r+1)`. -/
theorem C4_paste_square (s : OrganismState) (g : GridState) (r : Nat)
    (hr10 : r ≤ 10)
    (hclip : s.clipboard.length = (2 * r + 1) ^ 2)
    (hW : 2 * r + 1 ≤ g.width) (hH : 2 * r + 1 ≤ g.height)
    (hcx : s.cursor.x < g.width) (hcy : s.cursor.y < g.height)
    (hlen : g.data.length = g.width * g.height)
    (hwec : g.write_error_chance = 0) (hwpc : g.wall_pierce_chance = 0)
    (hnowall : ∀ p : Point, p.x < g.width → p.y < g.height →
      p.dist_to s.cursor g.width g.height ≤ r →
      g.get p ≠ some Instruction.Wall.asByte) :
    ∃ g', s.run g .Paste = some (s, g', Response.delay (2 * r + 1)) ∧
      ∀ p : Point, p.x < g.width → p.y < g.height →
        (p.dist_to s.cursor g.width g.height ≤ r →
          g'.get p = s.clipboard.get?
            ((p.sub (s.cursor.sub { x := r, y := r } g.width g.height)
                g.width g.height).x * (2 * r + 1) +
             (p.sub (s.cursor.sub { x := r, y := r } g.width g.height)
                g.width g.height).y)) ∧
        (r < p.dist_to s.cursor g.width g.height →
          g'.get p = g.get p) := by
  have hsel : selection_radius s.clipboard = some r :=
    selection_radius_len s.clipboard r hr10 hclip
  have hrW : r % g.width = r := Nat.mod_eq_of_lt (by omega)
  have hrH : r % g.height = r := Nat.mod_eq_of_lt (by omega)
  have hlef : s.cursor.left_n r g.width = some
      { x := if s.cursor.x < r then g.width + s.cursor.x - r
             else s.cursor.x - r,
        y := s.cursor.y } := by
    unfold Point.left_n
    rw [if_pos hcx]
    simp only [hrW]
  have hupn : (⟨if s.cursor.x < r then g.width + s.cursor.x - r
      else s.cursor.x - r, s.cursor.y⟩ : Point).up_n r g.height = some
      { x := if s.cursor.x < r then g.width + s.cursor.x - r
             else s.cursor.x - r,
        y := if s.cursor.y < r then g.height + s.cursor.y - r
             else s.cursor.y - r } := by
    unfold Point.up_n
    rw [if_pos hcy]
    simp only [hrH]
  have hsub : s.cursor.sub { x := r, y := r } g.width g.height =
      { x := if s.cursor.x < r then g.width + s.cursor.x - r
             else s.cursor.x - r,
        y := if s.cursor.y < r then g.height + s.cursor.y - r
             else s.cursor.y - r } := by
    simp only [Point.sub, sub_modular, gt_iff_lt]
  obtain ⟨gf, M, hloop, h1, h2, h3, h4, h5, h6⟩ :=
    pasteLoop_run s.cursor
      { x := if s.cursor.x < r then g.width + s.cursor.x - r
             else s.cursor.x - r,
        y := if s.cursor.y < r then g.height + s.cursor.y - r
             else s.cursor.y - r }
      r (r * 2 + 1) s.clipboard g.width g.height g hW hH hcx hcy
      (by ring) hclip rfl hnowall
      (4 * g.width * g.height + 2) g [s.cursor] []
      rfl rfl hlen hwec (fun q _ => rfl)
      (fun q hq => by
        rw [List.mem_singleton] at hq
        rw [hq]
        exact ⟨hcx, hcy⟩)
      (fun q hq => absurd hq (List.not_mem_nil q))
      List.nodup_nil
      (by
        simp only [List.length_singleton, List.length_nil]
        rw [Nat.mul_assoc]
        omega)
  have hcM : s.cursor ∈ M := by
    refine h5 s.cursor (List.mem_singleton_self _) ?_
    unfold Point.dist_to
    rw [dist_modular_self, dist_modular_self]
    omega
  have hball : ∀ q : Point, q.x < g.width → q.y < g.height →
      q.dist_to s.cursor g.width g.height ≤ r → q ∈ M :=
    ball_reach s.cursor r g.width g.height hW hH hcx hcy (· ∈ M) hcM
      (fun q hq d nq hmv hnqd => h6 q hq (List.not_mem_nil q) d nq hmv hnqd)
  have hpaste : s.paste g = some (r * 2 + 1, gf) := by
    unfold OrganismState.paste
    rw [hsel]
    simp only [Option.bind_eq_bind, Option.some_bind]
    rw [hlef]
    simp only [Option.some_bind]
    rw [hupn]
    simp only [Option.some_bind]
    rw [hloop]
    simp only [Option.some_bind]
  have hrun : s.run g .Paste = some (s, gf, Response.delay (2 * r + 1)) := by
    simp only [OrganismState.run]
    rw [hpaste]
    simp only [Option.bind_eq_bind, Option.some_bind]
    rw [show r * 2 + 1 = 2 * r + 1 from by ring]
  refine ⟨gf, hrun, ?_⟩
  intro p hpx hpy
  constructor
  · intro hpd
    have hpM : p ∈ M := hball p hpx hpy hpd
    have := h4 p hpM (List.not_mem_nil p)
    rw [hsub]
    rw [this]
    rw [show r * 2 + 1 = 2 * r + 1 from by ring]
  · intro hpd
    have hpM : p ∉ M := by
      intro hc
      rcases h2 p hc with hc2 | hc2
      · exact List.not_mem_nil p hc2
      · omega
    exact h3 p (Or.inr hpM)

theorem replicate_get_aux (n a i : Nat) (h : i < n) :
    (List.replicate n a).get? i = some a := by
  rw [List.get?_eq_getElem?, List.getElem?_replicate, if_pos h]

theorem C4_witness :
    ∃ g', statePaste.run gridNop10 .Paste =
        some (statePaste, g', Response.delay (2 * 1 + 1)) ∧
      ∀ p : Point, p.x < gridNop10.width → p.y < gridNop10.height →
        (p.dist_to statePaste.cursor gridNop10.width gridNop10.height ≤ 1 →
          g'.get p = statePaste.clipboard.get?
            ((p.sub (statePaste.cursor.sub { x := 1, y := 1 }
                gridNop10.width gridNop10.height)
                gridNop10.width gridNop10.height).x * (2 * 1 + 1) +
             (p.sub (statePaste.cursor.sub { x := 1, y := 1 }
                gridNop10.width gridNop10.height)
                gridNop10.width gridNop10.height).y)) ∧
        (1 < p.dist_to statePaste.cursor gridNop10.width gridNop10.height →
          g'.get p = gridNop10.get p) :=
  C4_paste_square statePaste gridNop10 1 (by decide) (by decide) (by decide)
    (by decide) (by decide) (by decide) (by decide) (by decide) (by decide)
    (by
      intro p hx hy hd hc
      have hx' : p.x < 10 := hx
      have hy' : p.y < 10 := hy
      unfold GridState.get at hc
      rw [if_pos (⟨hx, hy⟩ : p.x < gridNop10.width ∧
        p.y < gridNop10.height)] at hc
      have hidx : p.y * gridNop10.width + p.x < 100 := by
        show p.y * 10 + p.x < 100
        omega
      have h2 : gridNop10.data.get? (p.y * gridNop10.width + p.x) =
          some 1 := replicate_get_aux 100 1 _ hidx
      rw [h2] at hc
      exact absurd (Option.some.inj hc) (by decide))
